import Mathlib

/-!
Shallow embedding of the CSJ dataset reader
(`experiments/csj/data/read_dataset_ctc.py`, class `DataSet`) and proofs about it.

Modelling conventions:

* Feature values are opaque floats in the source; the padding claims only require a
  value with a zero, so feature entries are modelled as `Int` (`0` models `0.0`).
* The filesystem (`np.load`) and the external `stack_frame` collaborator are an
  environment parameter `Env`; the pickled `frame_num.pickle` content is a parameter
  of the constructor (a Python dict: distinct keys, insertion order preserved).
* Randomness (`random.shuffle`, `random.sample`) is an oracle parameter; theorems
  that depend on it being a permutation or a valid sample take that as a hypothesis.
* `self.rest` is a CPython set of small ints created by `set(range(n))` and shrunk
  by set difference.  Such a set stores each element `i < table_size` in slot `i`
  and therefore iterates in ascending numeric order, so `list(self.rest)` is the
  ascending enumeration of the set.  The embedding carries `rest` directly as that
  ascending duplicate-free list; `len(self.rest)` is its length, set difference is
  `filter`, and refilling with `set(range(n))` is `List.range n`.
* Python exceptions are `Except PyErr`; an exception anywhere in `next_batch`
  aborts the call (failures are fatal in this component, spec section 7).
-/

/-- Python exception kinds raised by the embedded code paths. -/
inductive PyErr where
  | valueError
  | typeError
  | indexError
  | attributeError
deriving DecidableEq

/-- Decidable equality of `Except` results, for evaluating concrete scenarios. -/
instance [DecidableEq ε] [DecidableEq α] : DecidableEq (Except ε α) := fun x y =>
  match x, y with
  | Except.ok a, Except.ok b =>
    if h : a = b then isTrue (by rw [h])
    else isFalse fun hc => h (Except.ok.inj hc)
  | Except.error a, Except.error b =>
    if h : a = b then isTrue (by rw [h])
    else isFalse fun hc => h (Except.error.inj hc)
  | Except.ok _, Except.error _ => isFalse fun hc => Except.noConfusion hc
  | Except.error _, Except.ok _ => isFalse fun hc => Except.noConfusion hc

/-- One frame of acoustic features (feature values modelled as integers). -/
abbrev Frame := List Int

/-- A per-utterance feature array, `frame_num × feature-dim`. -/
abbrev InputArray := List Frame

/-- Models `os.path.join a b` for one component: if `b` is absolute it wins,
otherwise a separator is inserted unless `a` already ends in one (or is empty). -/
def joinChars (a b : List Char) : List Char :=
  if b.head? = some '/' then b
  else if a.getLast? = some '/' ∨ a = [] then a ++ b
  else a ++ '/' :: b

/-- String wrapper for `joinChars`. -/
def pyJoin (a b : String) : String := ⟨joinChars a.data b.data⟩

/-- Models `os.path.basename`: the suffix after the last slash (a left fold that
resets at every slash). -/
def basenameChars (l : List Char) : List Char :=
  l.foldl (fun acc c => if c = '/' then [] else acc ++ [c]) []

/-- Models `basename(p).split('.')[0]` (lines 175-176, 239-240): the basename cut at
its first dot, i.e. the longest dot-free leading segment of the basename. -/
def stripName (p : String) : String :=
  ⟨(basenameChars p.data).takeWhile (fun c => c ≠ '.')⟩

/-- Models `input_name.split('_')[0]` (line 71): the speaker id is the part of the
utterance name before the first underscore. -/
def speakerName (name : String) : String :=
  ⟨name.data.takeWhile (fun c => c ≠ '_')⟩

/-- Models lines 52-54: the dataset root for a label type, corpus-size variant and
split. -/
def datasetPath (label_type train_data_size data_type : String) : String :=
  pyJoin (pyJoin (pyJoin ("/n/sd8/inaguma/corpus/csj/dataset/monolog/ctc/") label_type)
    train_data_size) data_type

/-- Models lines 72-73: the input-feature file path of one utterance. -/
def inputPathOf (label_type train_data_size data_type name : String) : String :=
  pyJoin (pyJoin (pyJoin (datasetPath label_type train_data_size data_type) ("input"))
    (speakerName name)) (name ++ ".npy")

/-- Models lines 74-75: the label file path of one utterance. -/
def labelPathOf (label_type train_data_size data_type name : String) : String :=
  pyJoin (pyJoin (pyJoin (datasetPath label_type train_data_size data_type) ("label"))
    (speakerName name)) (name ++ ".npy")

/-- The four-tuple returned by `next_batch` (lines 132-137). -/
structure Batch where
  input_data : List InputArray
  labels : List (List Int)
  seq_len : List Nat
  input_names : List String
deriving DecidableEq

/-- The reader's environment: `np.load` on input and label paths, and the external
`stack_frame` preprocessor (signature of line 118-123). -/
structure Env where
  loadInput : String → InputArray
  loadLabel : String → List Int
  stackFrame : List InputArray → List String → List (String × Nat) → Nat → Nat →
    List InputArray

/-- The mutable state of a `DataSet` object (the `self.*` attributes).
`num_cluster` is `none` when lines 82-85 set neither branch (a corpus-size variant
other than default/large), in which case reading it raises `AttributeError`. -/
structure DataSet where
  data_type : String
  train_data_size : String
  label_type : String
  num_stack : Option Nat
  num_skip : Option Nat
  is_sorted : Bool
  input_size : Nat
  frame_num_dict : List (String × Nat)
  data_num : Nat
  input_paths : List String
  label_paths : List String
  num_cluster : Option Nat
  rest_cluster : Nat
  data_num_cluster : Nat
  input_paths_cluster : List String
  label_paths_cluster : List String
  input_list : List InputArray
  label_list : List (List Int)
  rest : List Nat
  next_cluster_flag : Bool
deriving DecidableEq

/-- Models `DataSet.next_cluster` (lines 102-126): load every entry of the current
cluster's path slices (the loop over `range(data_num_cluster)` touches exactly the
whole slice, whose length is always `data_num_cluster`), optionally apply the
external frame-stacking transform, and reset `rest` to all cluster indices. -/
def DataSet.next_cluster (ds : DataSet) (env : Env) : DataSet :=
  let raw := ds.input_paths_cluster.map env.loadInput
  let inputs :=
    match ds.num_stack, ds.num_skip with
    | some st, some sk =>
        env.stackFrame raw ds.input_paths_cluster ds.frame_num_dict st sk
    | _, _ => raw
  { ds with
    input_list := inputs
    label_list := ds.label_paths_cluster.map env.loadLabel
    rest := List.range ds.input_paths_cluster.length }

/-- Models the Python slice `l[:b]` for an `int` stop `b`: a negative stop counts
from the end of the list (and clamps at zero). -/
def pySliceTo (l : List α) (b : Int) : List α :=
  if 0 ≤ b then l.take b.toNat else l.take ((l.length : Int) + b).toNat

/-- Models line 143, `list(self.rest)[:batch_size]`: the selection made in sorted
mode while more than `batch_size` indices remain unconsumed. -/
def sortedSelect (rest : List Nat) (b : Int) : List Nat := pySliceTo rest b

/-- The `sorted_indices` list of lines 142-153 before the in-batch shuffle. -/
def DataSet.selectionSorted (ds : DataSet) (b : Int) : List Nat :=
  if (ds.rest.length : Int) > b then sortedSelect ds.rest b else ds.rest

/-- Sequences a fallible map, stopping at the first raised exception, as the
Python `for` loops over the selected indices do. -/
def exMap (f : α → Except PyErr β) : List α → Except PyErr (List β)
  | [] => Except.ok []
  | x :: xs =>
    match f x, exMap f xs with
    | Except.error e, _ => Except.error e
    | Except.ok _, Except.error e => Except.error e
    | Except.ok y, Except.ok ys => Except.ok (y :: ys)

/-- Models one row assignment `input_data[i_batch, :frame_num, :] = data_i` into a
zero tensor row of shape `(max_frame_num, input_size)` (lines 162-172).  numpy
raises a broadcast `ValueError` when the utterance has more than `max_frame_num`
frames or a feature width other than `input_size`; otherwise the timesteps from
`frame_num` up to `max_frame_num` keep their zeros. -/
def padRow (maxf dim : Nat) (arr : InputArray) : Except PyErr InputArray :=
  if arr.length ≤ maxf ∧ ∀ r ∈ arr, r.length = dim then
    Except.ok (arr ++ List.replicate (maxf - arr.length) (List.replicate dim 0))
  else Except.error PyErr.valueError

/-- Models `data_i = self.input_list[x]` followed by the row assignment of
line 172: one padded row of the batch tensor for index `x` (an out-of-range
index raises `IndexError`). -/
def DataSet.rowOf (ds : DataSet) (maxf : Nat) (x : Nat) : Except PyErr InputArray :=
  match ds.input_list[x]? with
  | none => Except.error PyErr.indexError
  | some arr => padRow maxf ds.input_size arr

/-- Models `labels[i_batch] = self.label_list[x]` (line 173). -/
def DataSet.labelOf (ds : DataSet) (x : Nat) : Except PyErr (List Int) :=
  match ds.label_list[x]? with
  | none => Except.error PyErr.indexError
  | some l => Except.ok l

/-- Models `frame_num = data_i.shape[0]` / `seq_len[i_batch] = frame_num`
(lines 171, 174, 222): the loaded array's true frame count for index `x`. -/
def DataSet.lenOf (ds : DataSet) (x : Nat) : Except PyErr Nat :=
  match ds.input_list[x]? with
  | none => Except.error PyErr.indexError
  | some arr => Except.ok arr.length

/-- Models `input_names[i_batch] = basename(self.input_paths_cluster[x]).split('.')[0]`
(lines 175-176). -/
def DataSet.nameOf (ds : DataSet) (x : Nat) : Except PyErr String :=
  match ds.input_paths_cluster[x]? with
  | none => Except.error PyErr.indexError
  | some p => Except.ok (stripName p)

/-- Models the assembly loop of lines 161-176 (and identically 225-240): build
`(input_data, labels, seq_len, input_names)` for the given index list (already
shuffled in sorted mode). -/
def DataSet.assemble (ds : DataSet) (maxf : Nat) (idxs : List Nat) :
    Except PyErr Batch :=
  match exMap (ds.rowOf maxf) idxs, exMap ds.labelOf idxs,
    exMap ds.lenOf idxs, exMap ds.nameOf idxs with
  | Except.error e, _, _, _ => Except.error e
  | _, Except.error e, _, _ => Except.error e
  | _, _, Except.error e, _ => Except.error e
  | _, _, _, Except.error e => Except.error e
  | Except.ok rows, Except.ok labs, Except.ok lens, Except.ok names =>
      Except.ok ⟨rows, labs, lens, names⟩

/-- Models lines 178-198: the cluster advance performed after a sorted-mode batch
has exhausted the current cluster.  If clusters remain, slice the next
`data_num_cluster` paths at offset `(num_cluster - rest_cluster) * data_num_cluster`
and decrement `rest_cluster`; otherwise (training split) reset to the first slice
with `rest_cluster = num_cluster - 1`.  Either way the new cluster is then loaded
and the flag cleared. -/
def DataSet.advanceCluster (ds : DataSet) (env : Env) : Except PyErr DataSet :=
  let step : Except PyErr DataSet :=
    if 1 ≤ ds.rest_cluster then
      match ds.num_cluster with
      | none => Except.error PyErr.attributeError
      | some nc =>
        let off := (nc - ds.rest_cluster) * ds.data_num_cluster
        Except.ok { ds with
          input_paths_cluster := (ds.input_paths.drop off).take ds.data_num_cluster
          label_paths_cluster := (ds.label_paths.drop off).take ds.data_num_cluster
          rest_cluster := ds.rest_cluster - 1 }
    else if ds.data_type = "train" then
      match ds.num_cluster with
      | none => Except.error PyErr.attributeError
      | some nc =>
        Except.ok { ds with
          rest_cluster := nc - 1
          input_paths_cluster := ds.input_paths.take ds.data_num_cluster
          label_paths_cluster := ds.label_paths.take ds.data_num_cluster }
    else Except.ok ds
  match step with
  | Except.error e => Except.error e
  | Except.ok ds2 => Except.ok { ds2.next_cluster env with next_cluster_flag := false }

/-- Models lines 178-198 as a whole: after the batch is built, run the cluster
advance when the flag was just set, otherwise return the updated state as is. -/
def afterFlag (batch : Batch) (ds1 : DataSet) (flag : Bool) (env : Env) :
    Except PyErr (Batch × DataSet) :=
  if flag then
    match ds1.advanceCluster env with
    | Except.error e => Except.error e
    | Except.ok ds2 => Except.ok (batch, ds2)
  else Except.ok (batch, ds1)

/-- Models `next_batch`, sorted branch (lines 141-198).  `shuffle` stands for
`random.shuffle` on the selected indices.  Selecting from a nonempty `rest` with
`batch_size = 0` makes `sorted_indices` empty and `sorted_indices[-1]` raise
`IndexError` at line 156. -/
def DataSet.nextBatchSorted (ds : DataSet) (batch_size : Int)
    (shuffle : List Nat → List Nat) (env : Env) : Except PyErr (Batch × DataSet) :=
  let sel := ds.selectionSorted batch_size
  let rest1 :=
    if (ds.rest.length : Int) > batch_size then
      ds.rest.filter (fun x => decide (x ∉ sel))
    else if ds.data_type = "train" then ds.rest
    else List.range ds.input_paths_cluster.length
  let flag1 :=
    if (ds.rest.length : Int) > batch_size then ds.next_cluster_flag
    else if ds.data_type = "train" then true
    else ds.next_cluster_flag
  match sel.getLast? with
  | none => Except.error PyErr.indexError
  | some lastIdx =>
    match ds.input_list[lastIdx]? with
    | none => Except.error PyErr.indexError
    | some lastArr =>
      match ds.assemble lastArr.length (shuffle sel) with
      | Except.error e => Except.error e
      | Except.ok batch =>
        afterFlag batch { ds with rest := rest1, next_cluster_flag := flag1 }
          flag1 env

/-- Models `next_batch`, unsorted branch (lines 203-242).  `sample` is the oracle
for `random.sample(list(self.rest), batch_size)` (theorems hypothesise it is a
valid sample); `random.sample` itself raises `ValueError` on a negative size, and
`max([])` on an empty selection raises `ValueError` at line 223. -/
def DataSet.nextBatchUnsorted (ds : DataSet) (batch_size : Int)
    (sample : List Nat) (shuffle : List Nat → List Nat) (_env : Env) :
    Except PyErr (Batch × DataSet) :=
  if (ds.rest.length : Int) > batch_size ∧ batch_size < 0 then
    Except.error PyErr.valueError
  else
    let sel :=
      if (ds.rest.length : Int) > batch_size then sample else shuffle ds.rest
    let rest1 :=
      if (ds.rest.length : Int) > batch_size then
        ds.rest.filter (fun x => decide (x ∉ sample))
      else List.range ds.input_paths_cluster.length
    match exMap ds.lenOf sel with
    | Except.error e => Except.error e
    | Except.ok frame_num_list =>
      match frame_num_list.max? with
      | none => Except.error PyErr.valueError
      | some maxf =>
        match ds.assemble maxf sel with
        | Except.error e => Except.error e
        | Except.ok batch => Except.ok (batch, { ds with rest := rest1 })

/-- Models `DataSet.next_batch` (line 128): dispatch on `is_sorted`. -/
def DataSet.next_batch (ds : DataSet) (batch_size : Int)
    (shuffle : List Nat → List Nat) (sample : List Nat) (env : Env) :
    Except PyErr (Batch × DataSet) :=
  if ds.is_sorted then ds.nextBatchSorted batch_size shuffle env
  else ds.nextBatchUnsorted batch_size sample shuffle env

/-- The five split names accepted by the constructor (line 37). -/
def validDataTypes : List String := ["train", "dev", "eval1", "eval2", "eval3"]

/-- Stable insertion for sorting the frame-count dict items by count
(`sorted(self.frame_num_dict.items(), key=lambda x: x[1])`, lines 64-65). -/
def insertByCount (p : String × Nat) : List (String × Nat) → List (String × Nat)
  | [] => [p]
  | q :: qs => if p.2 ≤ q.2 then p :: q :: qs else q :: insertByCount p qs

/-- Stable sort of the dict items by ascending frame count (lines 64-65). -/
def sortByCount (l : List (String × Nat)) : List (String × Nat) :=
  l.foldr insertByCount []

/-- Models `DataSet.__init__` (lines 24-100).  Split validation (line 37) and the
`self.input_size = 123 * self.num_stack` computation (lines 50-51, a `TypeError`
when `num_stack` is `None`) happen before the pickle is opened or any file is
loaded, so those failures do not depend on `frame_num_dict` or `env`.  Line 88,
`int((self.data_num / self.num_cluster) / 128) * 128`, is Python-3 true division
followed by truncation; since the real quotients are nonnegative and a corpus
count fits a double's exact-integer range this equals the nested floor division
`data_num / num_cluster / 128 * 128` used here. -/
def DataSet.init (data_type train_data_size label_type : String)
    (num_stack num_skip : Option Nat) (is_sorted : Bool)
    (frame_num_dict : List (String × Nat)) (env : Env) : Except PyErr DataSet :=
  if data_type ∉ validDataTypes then Except.error PyErr.valueError
  else
    match num_stack with
    | none => Except.error PyErr.typeError
    | some st =>
      let tuples := sortByCount frame_num_dict
      let data_num := frame_num_dict.length
      let input_paths :=
        tuples.map (fun p => inputPathOf label_type train_data_size data_type p.1)
      let label_paths :=
        tuples.map (fun p => labelPathOf label_type train_data_size data_type p.1)
      let num_cluster : Option Nat :=
        if train_data_size = "default" then some 10
        else if train_data_size = "large" then some 15
        else none
      let base : DataSet := {
        data_type := data_type
        train_data_size := train_data_size
        label_type := label_type
        num_stack := some st
        num_skip := num_skip
        is_sorted := is_sorted
        input_size := 123 * st
        frame_num_dict := frame_num_dict
        data_num := data_num
        input_paths := input_paths
        label_paths := label_paths
        num_cluster := num_cluster
        rest_cluster := 0
        data_num_cluster := data_num
        input_paths_cluster := input_paths
        label_paths_cluster := label_paths
        input_list := []
        label_list := []
        rest := []
        next_cluster_flag := false }
      if data_type = "train" ∨ data_type = "train_all" then
        match num_cluster with
        | none => Except.error PyErr.attributeError
        | some nc =>
          let dnc := data_num / nc / 128 * 128
          let ds := { base with
            rest_cluster := nc - 1
            data_num_cluster := dnc
            input_paths_cluster := input_paths.take dnc
            label_paths_cluster := label_paths.take dnc }
          Except.ok { ds.next_cluster env with next_cluster_flag := false }
      else
        Except.ok { base.next_cluster env with next_cluster_flag := false }

/-- Well-formedness of a loaded reader state, as established by construction and
maintained by every batch: the loaded arrays and labels line up with the cluster
path slice, `rest` is a strictly ascending list of in-range indices, and every
loaded array has the reader's feature width. -/
def DataSet.Ready (ds : DataSet) : Prop :=
  ds.input_list.length = ds.input_paths_cluster.length ∧
  ds.label_list.length = ds.input_paths_cluster.length ∧
  (∀ x ∈ ds.rest, x < ds.input_list.length) ∧
  List.Sorted (· < ·) ds.rest ∧
  (∀ arr ∈ ds.input_list, ∀ r ∈ arr, r.length = ds.input_size)

/-- In sorted mode the loaded arrays' frame counts ascend with the cluster index
(the paths were sorted by frame count at construction). -/
def DataSet.LengthSorted (ds : DataSet) : Prop :=
  List.Sorted (· ≤ ·) (ds.input_list.map List.length)

/-- Readiness is checkable on concrete states. -/
instance (ds : DataSet) : Decidable ds.Ready := by
  unfold DataSet.Ready
  infer_instance

/-- Length-sortedness is checkable on concrete states. -/
instance (ds : DataSet) : Decidable ds.LengthSorted := by
  unfold DataSet.LengthSorted
  infer_instance

/-- The successive batch sizes of one full sorted-mode pass over `rest` with a
positive batch size `b`: while more than `b` indices remain, the reader selects
`sortedSelect rest b` and shrinks `rest` exactly as lines 143-144 do; the final
short batch takes whatever remains (lines 146-153). -/
def epochSizes (b : Nat) (rest : List Nat) : List Nat :=
  if h : b < rest.length ∧ 0 < b then
    (sortedSelect rest (b : Int)).length ::
      epochSizes b (rest.filter (fun x => decide (x ∉ sortedSelect rest (b : Int))))
  else [rest.length]
termination_by rest.length
decreasing_by
  obtain ⟨y, ys, rfl⟩ : ∃ y ys, rest = y :: ys := by
    cases rest with
    | nil => exact absurd h (by simp)
    | cons y ys => exact ⟨y, ys, rfl⟩
  have hy : y ∈ sortedSelect (y :: ys) (b : Int) := by
    unfold sortedSelect pySliceTo
    rw [if_pos (Int.ofNat_nonneg b)]
    show y ∈ List.take (b : Int).toNat (y :: ys)
    cases b with
    | zero => exact absurd h.2 (by simp)
    | succ k => simp
  show (List.filter (fun x => decide (x ∉ sortedSelect (y :: ys) (b : Int)))
    (y :: ys)).length < (y :: ys).length
  have hstep : List.filter (fun x => decide (x ∉ sortedSelect (y :: ys) (b : Int)))
      (y :: ys) =
      List.filter (fun x => decide (x ∉ sortedSelect (y :: ys) (b : Int))) ys := by
    rw [List.filter_cons]
    simp [hy]
  rw [hstep]
  exact Nat.lt_succ_of_le (List.length_filter_le _ ys)


/-! ### Concrete scenarios (spec section 8) -/

/-- A trivial environment, for claims about behavior that precedes any load. -/
def emptyEnv : Env := {
  loadInput := fun _ => []
  loadLabel := fun _ => []
  stackFrame := fun raw _ _ _ _ => raw }

/-- Fallback batch for extracting concrete run results out of `Except`. -/
def dummyBatch : Batch :=
  { input_data := [], labels := [], seq_len := [], input_names := [] }

/-- Fallback state for extracting concrete run results out of `Except`. -/
def dummyDS : DataSet := {
  data_type := ""
  train_data_size := ""
  label_type := ""
  num_stack := none
  num_skip := none
  is_sorted := true
  input_size := 0
  frame_num_dict := []
  data_num := 0
  input_paths := []
  label_paths := []
  num_cluster := none
  rest_cluster := 0
  data_num_cluster := 0
  input_paths_cluster := []
  label_paths_cluster := []
  input_list := []
  label_list := []
  rest := []
  next_cluster_flag := false }

/-- The spec's concrete frame-count index: `{a:5, b:3, c:8}`. -/
def csjDict : List (String × Nat) := [("a", 5), ("b", 3), ("c", 8)]

/-- An utterance array with `n` frames; the scenarios use `num_stack = 0`, hence
feature width `123 * 0 = 0`, which keeps evaluation small while exercising the
very same code paths. -/
def csjArr (n : Nat) : InputArray := List.replicate n []

/-- The filesystem for the `{a:5, b:3, c:8}` scenario on the `dev` split. -/
def csjEnv : Env := {
  loadInput := fun p =>
    if p = inputPathOf ("kanji") ("default") ("dev") ("a") then csjArr 5
    else if p = inputPathOf ("kanji") ("default") ("dev") ("b") then csjArr 3
    else csjArr 8
  loadLabel := fun _ => []
  stackFrame := fun raw _ _ _ _ => raw }

/-- The reader constructed on the scenario corpus (sorted mode, `dev` split). -/
def csjDS0 : DataSet :=
  (DataSet.init ("dev") ("default") ("kanji") (some 0) none true csjDict
    csjEnv).toOption.getD dummyDS

/-- First scenario batch: `batch_size = 2`, identity shuffle. -/
def csjPair1 : Batch × DataSet :=
  (csjDS0.next_batch 2 id [] csjEnv).toOption.getD (dummyBatch, dummyDS)

/-- Second scenario batch, from the state after the first. -/
def csjPair2 : Batch × DataSet :=
  (csjPair1.2.next_batch 2 id [] csjEnv).toOption.getD (dummyBatch, dummyDS)

/-- The same scenario reader flipped to unsorted mode. -/
def csjDS0u : DataSet := { csjDS0 with is_sorted := false }

/-- A frame-count index whose utterance key contains a dot. -/
def dotDict : List (String × Nat) := [("a.b", 3)]

/-- Filesystem for the dotted-name corpus. -/
def dotEnv : Env := {
  loadInput := fun _ => csjArr 3
  loadLabel := fun _ => []
  stackFrame := fun raw _ _ _ _ => raw }

/-- Reader constructed on the dotted-name corpus. -/
def dotDS0 : DataSet :=
  (DataSet.init ("dev") ("default") ("kanji") (some 0) none true dotDict
    dotEnv).toOption.getD dummyDS

/-- The single batch of the dotted-name corpus. -/
def dotPair : Batch × DataSet :=
  (dotDS0.next_batch 1 id [] dotEnv).toOption.getD (dummyBatch, dummyDS)

/-- Filesystem for the two-cluster training scenario. -/
def advEnv : Env := {
  loadInput := fun _ => csjArr 1
  loadLabel := fun _ => []
  stackFrame := fun raw _ _ _ _ => raw }

/-- A tiny mid-epoch training reader about to exhaust the first of its two
clusters (cluster size 1, `rest_cluster = 1`). -/
def advDS : DataSet := {
  data_type := "train"
  train_data_size := "default"
  label_type := "kanji"
  num_stack := some 0
  num_skip := none
  is_sorted := true
  input_size := 0
  frame_num_dict := [("a", 1), ("b", 1)]
  data_num := 2
  input_paths := ["pa", "pb"]
  label_paths := ["la", "lb"]
  num_cluster := some 2
  rest_cluster := 1
  data_num_cluster := 1
  input_paths_cluster := ["pa"]
  label_paths_cluster := ["la"]
  input_list := [csjArr 1]
  label_list := [[]]
  rest := [0]
  next_cluster_flag := false }

/-- The batch call that exhausts `advDS`'s cluster and advances to the next. -/
def advPair : Batch × DataSet :=
  (advDS.next_batch 1 id [] advEnv).toOption.getD (dummyBatch, dummyDS)

/-- The same training reader on its last cluster (`rest_cluster = 0`), about to
hit the epoch boundary. -/
def advDS0 : DataSet := { advDS with
  rest_cluster := 0
  input_paths_cluster := ["pb"]
  label_paths_cluster := ["lb"] }

/-- The batch call that exhausts the last cluster and resets the epoch. -/
def advPair0 : Batch × DataSet :=
  (advDS0.next_batch 1 id [] advEnv).toOption.getD (dummyBatch, dummyDS)


/-! ### Lemmas about `exMap`, `padRow` and the per-index assembly helpers -/

theorem exMap_ok_iff {α β : Type} {f : α → Except PyErr β} {l : List α}
    {ys : List β} :
    exMap f l = Except.ok ys ↔ List.Forall₂ (fun x y => f x = Except.ok y) l ys := by
  induction l generalizing ys with
  | nil =>
    constructor
    · intro h
      cases h
      exact List.Forall₂.nil
    · intro h
      cases h
      rfl
  | cons x xs ih =>
    constructor
    · intro h
      unfold exMap at h
      cases hfx : f x with
      | error e => rw [hfx] at h; cases h
      | ok y =>
        rw [hfx] at h
        cases hrec : exMap f xs with
        | error e => rw [hrec] at h; cases h
        | ok ys2 =>
          rw [hrec] at h
          cases h
          exact List.Forall₂.cons hfx (ih.mp hrec)
    · intro h
      cases h with
      | cons hxy hrest =>
        unfold exMap
        rw [hxy, ih.mpr hrest]

theorem exMap_ok_map {α β : Type} {f : α → Except PyErr β} {g : α → β} {l : List α}
    (h : ∀ x ∈ l, f x = Except.ok (g x)) : exMap f l = Except.ok (l.map g) := by
  induction l with
  | nil => rfl
  | cons x xs ih =>
    have hx := h x (List.mem_cons_self x xs)
    have hxs := ih (fun y hy => h y (List.mem_cons_of_mem x hy))
    unfold exMap
    rw [hx, hxs, List.map_cons]

theorem exMap_ok_length {α β : Type} {f : α → Except PyErr β} {l : List α}
    {ys : List β} (h : exMap f l = Except.ok ys) : ys.length = l.length :=
  (List.Forall₂.length_eq (exMap_ok_iff.mp h)).symm

theorem padRow_ok_iff {maxf dim : Nat} {arr row : InputArray} :
    padRow maxf dim arr = Except.ok row ↔
      arr.length ≤ maxf ∧ (∀ r ∈ arr, r.length = dim) ∧
        row = arr ++ List.replicate (maxf - arr.length) (List.replicate dim 0) := by
  constructor
  · intro h
    unfold padRow at h
    split at h
    next hc =>
      cases h
      exact ⟨hc.1, hc.2, rfl⟩
    next hc => cases h
  · rintro ⟨h1, h2, rfl⟩
    unfold padRow
    rw [if_pos ⟨h1, h2⟩]

theorem padded_length {maxf dim : Nat} {arr : InputArray} (h : arr.length ≤ maxf) :
    (arr ++ List.replicate (maxf - arr.length) (List.replicate dim 0)).length = maxf := by
  simp [Nat.add_sub_cancel' h]

theorem padded_take {maxf dim : Nat} {arr : InputArray} :
    (arr ++ List.replicate (maxf - arr.length) (List.replicate dim 0)).take arr.length
      = arr :=
  List.take_left arr _

theorem padded_getD_of_le {maxf dim : Nat} {arr : InputArray} {t : Nat}
    (h1 : arr.length ≤ t) (h2 : t < maxf) :
    (arr ++ List.replicate (maxf - arr.length) (List.replicate dim 0)).getD t []
      = List.replicate dim 0 := by
  rw [List.getD_eq_getElem?_getD, List.getElem?_append_right h1,
    List.getElem?_replicate]
  rw [if_pos (Nat.sub_lt_sub_right h1 h2)]
  rfl

theorem padded_cell_length {maxf dim : Nat} {arr : InputArray}
    (h2 : ∀ r ∈ arr, r.length = dim) :
    ∀ cell ∈ arr ++ List.replicate (maxf - arr.length) (List.replicate dim 0),
      cell.length = dim := by
  intro cell hc
  rcases List.mem_append.mp hc with h | h
  · exact h2 cell h
  · rw [List.eq_of_mem_replicate h]
    simp

theorem rowOf_ok_iff {ds : DataSet} {maxf x : Nat} {row : InputArray} :
    ds.rowOf maxf x = Except.ok row ↔
      ∃ arr, ds.input_list[x]? = some arr ∧ arr.length ≤ maxf ∧
        (∀ r ∈ arr, r.length = ds.input_size) ∧
        row = arr ++ List.replicate (maxf - arr.length)
          (List.replicate ds.input_size 0) := by
  unfold DataSet.rowOf
  cases h : ds.input_list[x]? with
  | none => simp
  | some arr => simp [padRow_ok_iff]

theorem labelOf_ok_iff {ds : DataSet} {x : Nat} {l : List Int} :
    ds.labelOf x = Except.ok l ↔ ds.label_list[x]? = some l := by
  unfold DataSet.labelOf
  cases h : ds.label_list[x]? with
  | none => simp
  | some l2 => simp

theorem lenOf_ok_iff {ds : DataSet} {x n : Nat} :
    ds.lenOf x = Except.ok n ↔
      ∃ arr, ds.input_list[x]? = some arr ∧ arr.length = n := by
  unfold DataSet.lenOf
  cases h : ds.input_list[x]? with
  | none => simp
  | some arr => simp

theorem nameOf_ok_iff {ds : DataSet} {x : Nat} {nm : String} :
    ds.nameOf x = Except.ok nm ↔
      ∃ p, ds.input_paths_cluster[x]? = some p ∧ nm = stripName p := by
  unfold DataSet.nameOf
  cases h : ds.input_paths_cluster[x]? with
  | none => simp
  | some p => simp [eq_comm]

theorem assemble_ok_iff {ds : DataSet} {maxf : Nat} {idxs : List Nat} {b : Batch} :
    ds.assemble maxf idxs = Except.ok b ↔
      exMap (ds.rowOf maxf) idxs = Except.ok b.input_data ∧
      exMap ds.labelOf idxs = Except.ok b.labels ∧
      exMap ds.lenOf idxs = Except.ok b.seq_len ∧
      exMap ds.nameOf idxs = Except.ok b.input_names := by
  unfold DataSet.assemble
  cases h1 : exMap (ds.rowOf maxf) idxs with
  | error e => simp [h1]
  | ok rows =>
    cases h2 : exMap ds.labelOf idxs with
    | error e => simp [h2]
    | ok labs =>
      cases h3 : exMap ds.lenOf idxs with
      | error e => simp [h3]
      | ok lens =>
        cases h4 : exMap ds.nameOf idxs with
        | error e => simp [h4]
        | ok names =>
          cases b with
          | mk bi bl bs bn =>
            simp [Batch.mk.injEq, eq_comm, and_assoc]

/-! ### Lemmas about the sorted-mode selection and well-formed reader states -/

theorem sortedSelect_eq_take {rest : List Nat} {b : Int} (h : 0 ≤ b) :
    sortedSelect rest b = rest.take b.toNat := by
  unfold sortedSelect pySliceTo
  rw [if_pos h]

theorem selectionSorted_of_gt {ds : DataSet} {b : Nat}
    (h : (ds.rest.length : Int) > (b : Int)) :
    ds.selectionSorted (b : Int) = ds.rest.take b := by
  unfold DataSet.selectionSorted
  rw [if_pos h, sortedSelect_eq_take (Int.ofNat_nonneg b)]
  rfl

theorem selectionSorted_of_le {ds : DataSet} {b : Int}
    (h : ¬ (ds.rest.length : Int) > b) :
    ds.selectionSorted b = ds.rest := by
  unfold DataSet.selectionSorted
  rw [if_neg h]

theorem selectionSorted_sublist (ds : DataSet) (b : Int) :
    (ds.selectionSorted b).Sublist ds.rest := by
  unfold DataSet.selectionSorted sortedSelect pySliceTo
  split
  · split
    · exact List.take_sublist _ _
    · exact List.take_sublist _ _
  · exact List.Sublist.refl _

theorem selectionSorted_subset {ds : DataSet} {b : Int} :
    ∀ x ∈ ds.selectionSorted b, x ∈ ds.rest :=
  fun _ hx => (selectionSorted_sublist ds b).subset hx

theorem sorted_le_getLast {l : List Nat} {m : Nat}
    (hs : List.Sorted (· < ·) l) (hm : l.getLast? = some m) : ∀ x ∈ l, x ≤ m := by
  obtain ⟨ys, rfl⟩ := List.getLast?_eq_some_iff.mp hm
  intro x hx
  rcases List.mem_append.mp hx with h | h
  · exact Nat.le_of_lt
      ((List.pairwise_append.mp hs).2.2 x h m (List.mem_singleton_self m))
  · rw [List.mem_singleton.mp h]

theorem filter_not_mem_take {rest : List Nat} (n : Nat)
    (hs : List.Sorted (· < ·) rest) :
    rest.filter (fun x => decide (x ∉ rest.take n)) = rest.drop n := by
  have hnd : rest.Nodup := hs.nodup
  have hnd2 : ((rest.take n) ++ (rest.drop n)).Nodup := by
    rw [List.take_append_drop]
    exact hnd
  have hdisj : List.Disjoint (rest.take n) (rest.drop n) :=
    List.disjoint_of_nodup_append hnd2
  have h1 : (rest.take n).filter (fun x => decide (x ∉ rest.take n)) = [] := by
    rw [List.filter_eq_nil_iff]
    intro a ha
    simp [ha]
  have h2 : (rest.drop n).filter (fun x => decide (x ∉ rest.take n)) = rest.drop n := by
    rw [List.filter_eq_self]
    intro a ha
    simpa using fun hmem => hdisj hmem ha
  have key : (rest.take n ++ rest.drop n).filter (fun x => decide (x ∉ rest.take n))
      = rest.drop n := by
    rw [List.filter_append, h1, h2, List.nil_append]
  rw [List.take_append_drop] at key
  exact key


theorem getElem?_eq_some_getD {α} {l : List α} {i : Nat} (h : i < l.length) (d : α) :
    l[i]? = some (l.getD i d) := by
  rw [List.getElem?_eq_getElem h, List.getD_eq_getElem?_getD,
    List.getElem?_eq_getElem h]
  rfl

theorem getD_mem_of_lt {α} {l : List α} {i : Nat} (h : i < l.length) (d : α) :
    l.getD i d ∈ l := by
  rw [List.getD_eq_getElem?_getD, List.getElem?_eq_getElem h]
  exact List.getElem_mem h

theorem lengthSorted_le {ds : DataSet} (h : ds.LengthSorted) {i j : Nat}
    (hij : i ≤ j) (hi : i < ds.input_list.length) (hj : j < ds.input_list.length) :
    (ds.input_list.getD i []).length ≤ (ds.input_list.getD j []).length := by
  have hmap := h.rel_get_of_le (a := ⟨i, by simpa using hi⟩)
    (b := ⟨j, by simpa using hj⟩) hij
  simpa [List.getD_eq_getElem?_getD, List.getElem?_eq_getElem, hi, hj] using hmap

/-! ### Success characterization of batch assembly -/

theorem assemble_ok_of (ds : DataSet) (maxf : Nat) (idxs : List Nat)
    (hin : ∀ x ∈ idxs, x < ds.input_list.length)
    (hlab : ∀ x ∈ idxs, x < ds.label_list.length)
    (hpath : ∀ x ∈ idxs, x < ds.input_paths_cluster.length)
    (hle : ∀ x ∈ idxs, (ds.input_list.getD x []).length ≤ maxf)
    (hwid : ∀ arr ∈ ds.input_list, ∀ r ∈ arr, r.length = ds.input_size) :
    ds.assemble maxf idxs = Except.ok
      ⟨idxs.map (fun x => ds.input_list.getD x [] ++
          List.replicate (maxf - (ds.input_list.getD x []).length)
            (List.replicate ds.input_size 0)),
        idxs.map (fun x => ds.label_list.getD x []),
        idxs.map (fun x => (ds.input_list.getD x []).length),
        idxs.map (fun x => stripName (ds.input_paths_cluster.getD x ("")))⟩ := by
  have hrows : ∀ x ∈ idxs, ds.rowOf maxf x = Except.ok
      (ds.input_list.getD x [] ++
        List.replicate (maxf - (ds.input_list.getD x []).length)
          (List.replicate ds.input_size 0)) := by
    intro x hx
    unfold DataSet.rowOf
    rw [getElem?_eq_some_getD (hin x hx) []]
    show padRow maxf ds.input_size (ds.input_list.getD x []) = _
    unfold padRow
    rw [if_pos ⟨hle x hx, fun r hr =>
      hwid _ (getD_mem_of_lt (hin x hx) []) r hr⟩]
  have hlabs : ∀ x ∈ idxs, ds.labelOf x = Except.ok (ds.label_list.getD x []) := by
    intro x hx
    unfold DataSet.labelOf
    rw [getElem?_eq_some_getD (hlab x hx) []]
  have hlens : ∀ x ∈ idxs, ds.lenOf x =
      Except.ok ((ds.input_list.getD x []).length) := by
    intro x hx
    unfold DataSet.lenOf
    rw [getElem?_eq_some_getD (hin x hx) []]
  have hnames : ∀ x ∈ idxs, ds.nameOf x =
      Except.ok (stripName (ds.input_paths_cluster.getD x (""))) := by
    intro x hx
    unfold DataSet.nameOf
    rw [getElem?_eq_some_getD (hpath x hx) ("")]
  unfold DataSet.assemble
  rw [exMap_ok_map hrows, exMap_ok_map hlabs, exMap_ok_map hlens, exMap_ok_map hnames]

/-- Unfolding equation for a sorted-mode `next_batch` call that does not trigger a
cluster advance (the flag is clear and either the cluster is not exhausted or the
split is not the training one). -/
theorem nextBatchSorted_eq (ds : DataSet) (b : Int) (shuffle : List Nat → List Nat)
    (env : Env) {last : Nat} {lastArr : InputArray} {batch : Batch}
    (hlast : (ds.selectionSorted b).getLast? = some last)
    (harr : ds.input_list[last]? = some lastArr)
    (hasm : ds.assemble lastArr.length (shuffle (ds.selectionSorted b)) =
      Except.ok batch)
    (hflag : ds.next_cluster_flag = false)
    (hnt : (ds.rest.length : Int) > b ∨ ds.data_type ≠ "train") :
    ds.nextBatchSorted b shuffle env = Except.ok (batch,
      { ds with
        rest := if (ds.rest.length : Int) > b then
            ds.rest.filter (fun x => decide (x ∉ ds.selectionSorted b))
          else List.range ds.input_paths_cluster.length,
        next_cluster_flag := false }) := by
  simp only [DataSet.nextBatchSorted, hlast, harr, hasm]
  by_cases hgt : (ds.rest.length : Int) > b
  · simp [hgt, hflag, afterFlag]
  · rcases hnt with h | hdt
    · exact absurd h hgt
    · simp [hgt, hdt, hflag, afterFlag]

/-- Under a well-formed sorted-mode state with a nonempty selection and no pending
cluster advance, `next_batch` succeeds, and its outputs are the shuffled
selection's padded rows, labels, true lengths and names, padded to the width of
the last selected (pre-shuffle) index's array. -/
theorem nextBatchSorted_ok (ds : DataSet) (b : Int) (shuffle : List Nat → List Nat)
    (env : Env)
    (hready : ds.Ready) (hlen : ds.LengthSorted)
    (hsh : ∀ l, (shuffle l).Perm l)
    (hne : ds.selectionSorted b ≠ [])
    (hflag : ds.next_cluster_flag = false)
    (hnt : (ds.rest.length : Int) > b ∨ ds.data_type ≠ "train") :
    ∃ last lastArr, (ds.selectionSorted b).getLast? = some last ∧
      ds.input_list[last]? = some lastArr ∧
      ds.nextBatchSorted b shuffle env = Except.ok (
        ⟨(shuffle (ds.selectionSorted b)).map (fun x => ds.input_list.getD x [] ++
            List.replicate (lastArr.length - (ds.input_list.getD x []).length)
              (List.replicate ds.input_size 0)),
          (shuffle (ds.selectionSorted b)).map (fun x => ds.label_list.getD x []),
          (shuffle (ds.selectionSorted b)).map
            (fun x => (ds.input_list.getD x []).length),
          (shuffle (ds.selectionSorted b)).map
            (fun x => stripName (ds.input_paths_cluster.getD x ("")))⟩,
        { ds with
          rest := if (ds.rest.length : Int) > b then
              ds.rest.filter (fun x => decide (x ∉ ds.selectionSorted b))
            else List.range ds.input_paths_cluster.length,
          next_cluster_flag := false }) := by
  obtain ⟨hl1, hl2, hmem, hsorted, hwid⟩ := hready
  have hlastsome : (ds.selectionSorted b).getLast?.isSome := by
    rw [List.getLast?_isSome]
    exact hne
  obtain ⟨last, hlast⟩ := Option.isSome_iff_exists.mp hlastsome
  have hlastmem : last ∈ ds.selectionSorted b := by
    obtain ⟨ys, hys⟩ := List.getLast?_eq_some_iff.mp hlast
    rw [hys]
    simp
  have hlastrest : last ∈ ds.rest := selectionSorted_subset last hlastmem
  have hlastlt : last < ds.input_list.length := hmem last hlastrest
  have harr : ds.input_list[last]? = some (ds.input_list.getD last []) :=
    getElem?_eq_some_getD hlastlt []
  have hselsub : ∀ x ∈ shuffle (ds.selectionSorted b), x ∈ ds.rest := by
    intro x hx
    exact selectionSorted_subset x ((hsh _).mem_iff.mp hx)
  have hin : ∀ x ∈ shuffle (ds.selectionSorted b), x < ds.input_list.length :=
    fun x hx => hmem x (hselsub x hx)
  have hselSorted : List.Sorted (· < ·) (ds.selectionSorted b) :=
    List.Pairwise.sublist (selectionSorted_sublist ds b) hsorted
  have hle : ∀ x ∈ shuffle (ds.selectionSorted b),
      (ds.input_list.getD x []).length ≤ (ds.input_list.getD last []).length := by
    intro x hx
    have hxle : x ≤ last :=
      sorted_le_getLast hselSorted hlast x ((hsh _).mem_iff.mp hx)
    exact lengthSorted_le hlen hxle (hin x hx) hlastlt
  have hasm := assemble_ok_of ds (ds.input_list.getD last []).length
      (shuffle (ds.selectionSorted b)) hin
      (fun x hx => by rw [hl2, ← hl1]; exact hin x hx)
      (fun x hx => by rw [← hl1]; exact hin x hx)
      hle hwid
  exact ⟨last, ds.input_list.getD last [], hlast, harr,
    nextBatchSorted_eq ds b shuffle env hlast harr hasm hflag hnt⟩

/-- Inversion of the post-batch flag handling. -/
theorem afterFlag_ok_inv {batch0 : Batch} {ds1 : DataSet} {flag : Bool} {env : Env}
    {batch : Batch} {ds' : DataSet}
    (h : afterFlag batch0 ds1 flag env = Except.ok (batch, ds')) :
    batch = batch0 ∧
      ((flag = false ∧ ds' = ds1) ∨
        (flag = true ∧ ds1.advanceCluster env = Except.ok ds')) := by
  unfold afterFlag at h
  cases flag with
  | false =>
    simp only [Bool.false_eq_true, if_false] at h
    obtain ⟨h1, h2⟩ := Prod.mk.injEq .. ▸ Except.ok.inj h
    exact ⟨h1.symm, Or.inl ⟨rfl, h2.symm⟩⟩
  | true =>
    simp only [if_true] at h
    cases hadv : ds1.advanceCluster env with
    | error e => simp [hadv] at h
    | ok ds2 =>
      rw [hadv] at h
      obtain ⟨h1, h2⟩ := Prod.mk.injEq .. ▸ Except.ok.inj h
      exact ⟨h1.symm, Or.inr ⟨rfl, congrArg Except.ok h2⟩⟩

/-- Inversion of a successful sorted-mode call: the selection has a last index
whose array provides the padding width, the batch is the assembly over the
shuffled selection, and the final state is the updated one (with a cluster
advance exactly when the flag was just set). -/
theorem nextBatchSorted_ok_inv {ds : DataSet} {b : Int}
    {shuffle : List Nat → List Nat} {env : Env} {batch : Batch} {ds' : DataSet}
    (h : ds.nextBatchSorted b shuffle env = Except.ok (batch, ds')) :
    ∃ last lastArr,
      (ds.selectionSorted b).getLast? = some last ∧
      ds.input_list[last]? = some lastArr ∧
      ds.assemble lastArr.length (shuffle (ds.selectionSorted b)) =
        Except.ok batch ∧
      (((if (ds.rest.length : Int) > b then ds.next_cluster_flag
          else if ds.data_type = "train" then true else ds.next_cluster_flag)
            = false ∧
          ds' = { ds with
            rest := if (ds.rest.length : Int) > b then
                ds.rest.filter (fun x => decide (x ∉ ds.selectionSorted b))
              else if ds.data_type = "train" then ds.rest
              else List.range ds.input_paths_cluster.length,
            next_cluster_flag :=
              if (ds.rest.length : Int) > b then ds.next_cluster_flag
              else if ds.data_type = "train" then true
              else ds.next_cluster_flag }) ∨
        ((if (ds.rest.length : Int) > b then ds.next_cluster_flag
          else if ds.data_type = "train" then true else ds.next_cluster_flag)
            = true ∧
          DataSet.advanceCluster { ds with
            rest := if (ds.rest.length : Int) > b then
                ds.rest.filter (fun x => decide (x ∉ ds.selectionSorted b))
              else if ds.data_type = "train" then ds.rest
              else List.range ds.input_paths_cluster.length,
            next_cluster_flag :=
              if (ds.rest.length : Int) > b then ds.next_cluster_flag
              else if ds.data_type = "train" then true
              else ds.next_cluster_flag } env = Except.ok ds')) := by
  simp only [DataSet.nextBatchSorted] at h
  cases hlast : (ds.selectionSorted b).getLast? with
  | none => simp [hlast] at h
  | some last =>
    simp only [hlast] at h
    cases harr : ds.input_list[last]? with
    | none => simp [harr] at h
    | some lastArr =>
      simp only [harr] at h
      cases hasm : ds.assemble lastArr.length (shuffle (ds.selectionSorted b)) with
      | error e => simp [hasm] at h
      | ok batch0 =>
        simp only [hasm] at h
        obtain ⟨hb, hrest⟩ := afterFlag_ok_inv h
        refine ⟨last, lastArr, rfl, harr, ?_, hrest⟩
        rw [hb]
        exact hasm

/-- Pointwise content of a successfully assembled batch. -/
theorem assemble_ok_lengths {ds : DataSet} {maxf : Nat} {idxs : List Nat}
    {b : Batch} (h : ds.assemble maxf idxs = Except.ok b) :
    b.input_data.length = idxs.length ∧ b.labels.length = idxs.length ∧
      b.seq_len.length = idxs.length ∧ b.input_names.length = idxs.length := by
  obtain ⟨h1, h2, h3, h4⟩ := assemble_ok_iff.mp h
  exact ⟨exMap_ok_length h1, exMap_ok_length h2, exMap_ok_length h3,
    exMap_ok_length h4⟩

/-- Pointwise inversion of a successfully assembled batch: row `i` is utterance
`idxs[i]`'s array right-padded with zero frames to width `maxf`, `seq_len[i]` is
its true frame count, and `input_names[i]` is its path's stripped basename. -/
theorem assemble_ok_get {ds : DataSet} {maxf : Nat} {idxs : List Nat} {b : Batch}
    (h : ds.assemble maxf idxs = Except.ok b) (i : Nat) (hi : i < idxs.length) :
    ∃ arr p, ds.input_list[idxs.get ⟨i, hi⟩]? = some arr ∧ arr.length ≤ maxf ∧
      (∀ r ∈ arr, r.length = ds.input_size) ∧
      b.input_data[i]? = some (arr ++ List.replicate (maxf - arr.length)
        (List.replicate ds.input_size 0)) ∧
      b.seq_len[i]? = some arr.length ∧
      ds.input_paths_cluster[idxs.get ⟨i, hi⟩]? = some p ∧
      b.input_names[i]? = some (stripName p) := by
  obtain ⟨h1, _h2, h3, h4⟩ := assemble_ok_iff.mp h
  obtain ⟨hl1, hg1⟩ := List.forall₂_iff_get.mp (exMap_ok_iff.mp h1)
  obtain ⟨hl3, hg3⟩ := List.forall₂_iff_get.mp (exMap_ok_iff.mp h3)
  obtain ⟨hl4, hg4⟩ := List.forall₂_iff_get.mp (exMap_ok_iff.mp h4)
  have hi1 : i < b.input_data.length := hl1 ▸ hi
  have hi3 : i < b.seq_len.length := hl3 ▸ hi
  have hi4 : i < b.input_names.length := hl4 ▸ hi
  obtain ⟨arr, ha, hle, hwid, hrow⟩ := rowOf_ok_iff.mp (hg1 i hi hi1)
  obtain ⟨arr3, ha3, hlen3⟩ := lenOf_ok_iff.mp (hg3 i hi hi3)
  obtain ⟨p, hp, hnm⟩ := nameOf_ok_iff.mp (hg4 i hi hi4)
  rw [ha] at ha3
  cases ha3
  refine ⟨arr, p, ha, hle, hwid, ?_, ?_, hp, ?_⟩
  · rw [List.getElem?_eq_getElem hi1]
    exact congrArg some (by simpa [List.get_eq_getElem] using hrow)
  · rw [List.getElem?_eq_getElem hi3, hlen3]
    rfl
  · rw [List.getElem?_eq_getElem hi4]
    exact congrArg some (by simpa [List.get_eq_getElem] using hnm)

/-- Inversion of a successful unsorted-mode call. -/
theorem nextBatchUnsorted_ok_inv {ds : DataSet} {b : Int} {sample : List Nat}
    {shuffle : List Nat → List Nat} {env : Env} {batch : Batch} {ds' : DataSet}
    (h : ds.nextBatchUnsorted b sample shuffle env = Except.ok (batch, ds')) :
    ∃ maxf lens,
      exMap ds.lenOf
        (if (ds.rest.length : Int) > b then sample else shuffle ds.rest) =
        Except.ok lens ∧
      lens.max? = some maxf ∧
      ds.assemble maxf
        (if (ds.rest.length : Int) > b then sample else shuffle ds.rest) =
        Except.ok batch ∧
      ds' = { ds with rest :=
        if (ds.rest.length : Int) > b then
          ds.rest.filter (fun x => decide (x ∉ sample))
        else List.range ds.input_paths_cluster.length } := by
  simp only [DataSet.nextBatchUnsorted] at h
  by_cases hneg : (ds.rest.length : Int) > b ∧ b < 0
  · simp [hneg] at h
  · rw [if_neg hneg] at h
    cases hlen : exMap ds.lenOf
        (if (ds.rest.length : Int) > b then sample else shuffle ds.rest) with
    | error e => rw [hlen] at h; cases h
    | ok lens =>
      rw [hlen] at h
      cases hmax : lens.max? with
      | none => simp only [hmax] at h; cases h
      | some maxf =>
        simp only [hmax] at h
        cases hasm : ds.assemble maxf
            (if (ds.rest.length : Int) > b then sample else shuffle ds.rest) with
        | error e => simp only [hasm] at h; cases h
        | ok batch0 =>
          simp only [hasm] at h
          obtain ⟨hb, hds⟩ := Prod.mk.injEq .. ▸ Except.ok.inj h
          refine ⟨maxf, lens, rfl, hmax, ?_, hds.symm⟩
          rw [← hb]
          exact hasm

/-- Under a well-formed state, an unsorted-mode call whose `batch_size` is at
least the number of unconsumed indices returns the whole remainder as a single
batch and refills the unconsumed set (the epoch reset of lines 209-212). -/
theorem nextBatchUnsorted_ok_all (ds : DataSet) (b : Int)
    (shuffle : List Nat → List Nat) (sample : List Nat) (env : Env)
    (hready : ds.Ready) (hsh : ∀ l, (shuffle l).Perm l)
    (hne : ds.rest ≠ []) (hle : ¬ (ds.rest.length : Int) > b) :
    ∃ batch,
      ds.nextBatchUnsorted b sample shuffle env = Except.ok (batch,
        { ds with rest := List.range ds.input_paths_cluster.length }) ∧
      batch.input_names.length = ds.rest.length := by
  obtain ⟨hl1, hl2, hmem, _hs, hwid⟩ := hready
  have hnotand : ¬ ((ds.rest.length : Int) > b ∧ b < 0) := fun hc => hle hc.1
  have hin : ∀ x ∈ shuffle ds.rest, x < ds.input_list.length :=
    fun x hx => hmem x ((hsh _).mem_iff.mp hx)
  have hlens : exMap ds.lenOf (shuffle ds.rest) = Except.ok
      ((shuffle ds.rest).map (fun x => (ds.input_list.getD x []).length)) := by
    apply exMap_ok_map
    intro x hx
    unfold DataSet.lenOf
    rw [getElem?_eq_some_getD (hin x hx) []]
  have hlenperm : (shuffle ds.rest).length = ds.rest.length := (hsh _).length_eq
  have hne2 : (shuffle ds.rest).map (fun x => (ds.input_list.getD x []).length)
      ≠ [] := by
    intro hc
    apply hne
    have hl := congrArg List.length hc
    rw [List.length_map, hlenperm] at hl
    exact List.eq_nil_of_length_eq_zero hl
  cases hmax : ((shuffle ds.rest).map
      (fun x => (ds.input_list.getD x []).length)).max? with
  | none => exact absurd (List.max?_eq_none_iff.mp hmax) hne2
  | some m =>
    have hbound : ∀ x ∈ shuffle ds.rest, (ds.input_list.getD x []).length ≤ m :=
      fun x hx => (List.max?_eq_some_iff'.mp hmax).2 _
        (List.mem_map_of_mem _ hx)
    have hasm := assemble_ok_of ds m (shuffle ds.rest) hin
      (fun x hx => by rw [hl2, ← hl1]; exact hin x hx)
      (fun x hx => by rw [← hl1]; exact hin x hx)
      hbound hwid
    refine ⟨⟨(shuffle ds.rest).map (fun x => ds.input_list.getD x [] ++
        List.replicate (m - (ds.input_list.getD x []).length)
          (List.replicate ds.input_size 0)),
      (shuffle ds.rest).map (fun x => ds.label_list.getD x []),
      (shuffle ds.rest).map (fun x => (ds.input_list.getD x []).length),
      (shuffle ds.rest).map
        (fun x => stripName (ds.input_paths_cluster.getD x ("")))⟩, ?_, ?_⟩
    · simp only [DataSet.nextBatchUnsorted, if_neg hnotand, if_neg hle]
      simp only [hlens, hmax, hasm]
    · simp [hlenperm]

/-- Removing a present element that fails the filter strictly shrinks the list. -/
theorem length_filter_lt {α : Type} (p : α → Bool) {l : List α} {x : α}
    (hx : x ∈ l) (hpx : p x = false) : (l.filter p).length < l.length := by
  induction l with
  | nil => cases hx
  | cons a as ih =>
    rcases List.mem_cons.mp hx with rfl | hmem
    · simp only [List.filter_cons, hpx, Bool.false_eq_true, if_false,
        List.length_cons]
      exact Nat.lt_succ_of_le (List.length_filter_le p as)
    · simp only [List.filter_cons, List.length_cons]
      cases hpa : p a
      · simp only [Bool.false_eq_true, if_false]
        exact Nat.lt_succ_of_lt (ih hmem)
      · simp only [if_true, List.length_cons]
        exact Nat.succ_lt_succ (ih hmem)


/-- One sorted-mode pass over a strictly ascending `rest` emits every index
exactly once: the emitted batch sizes sum to `rest.length`. -/
theorem epochSizes_sum (b : Nat) (hb : 0 < b) (rest : List Nat)
    (hs : List.Sorted (· < ·) rest) : (epochSizes b rest).sum = rest.length := by
  generalize hn : rest.length = n
  induction n using Nat.strong_induction_on generalizing rest with
  | _ n ih =>
    subst hn
    rw [epochSizes]
    split
    · next h =>
      have hsel : sortedSelect rest ((b : Nat) : Int) = rest.take b := by
        rw [sortedSelect_eq_take (Int.ofNat_nonneg b)]
        rfl
      rw [hsel, List.sum_cons, filter_not_mem_take b hs]
      have hdroplen : (rest.drop b).length = rest.length - b := List.length_drop b rest
      have hrec := ih ((rest.drop b).length) (by rw [hdroplen]; omega)
        (rest.drop b)
        (List.Pairwise.sublist (List.drop_sublist b rest) hs) rfl
      rw [hrec, hdroplen, List.length_take]
      omega
    · simp

/-! ### Lemmas about path construction and utterance-name recovery -/

theorem foldl_basename_no_slash {l : List Char} (h : ('/' : Char) ∉ l) :
    ∀ acc : List Char,
      l.foldl (fun acc c => if c = '/' then [] else acc ++ [c]) acc = acc ++ l := by
  induction l with
  | nil =>
    intro acc
    simp
  | cons c cs ih =>
    intro acc
    have hc : c ≠ '/' := fun hc => h (hc ▸ List.mem_cons_self c cs)
    have hcs : ('/' : Char) ∉ cs := fun hm => h (List.mem_cons_of_mem c hm)
    simp only [List.foldl_cons, if_neg hc]
    rw [ih hcs]
    simp

theorem basenameChars_no_slash {l : List Char} (h : ('/' : Char) ∉ l) :
    basenameChars l = l := by
  unfold basenameChars
  rw [foldl_basename_no_slash h []]
  simp

theorem basenameChars_append_slash (a b : List Char) :
    basenameChars (a ++ '/' :: b) = basenameChars b := by
  unfold basenameChars
  rw [List.foldl_append, List.foldl_cons, if_pos rfl]

theorem takeWhile_append_stop {a : List Char} (r : List Char)
    (h : ('.' : Char) ∉ a) :
    (a ++ '.' :: r).takeWhile (fun c => c ≠ '.') = a := by
  induction a with
  | nil => simp [List.takeWhile_cons]
  | cons c cs ih =>
    have hc : c ≠ '.' := fun hc => h (hc ▸ List.mem_cons_self c cs)
    have hcs : ('.' : Char) ∉ cs := fun hm => h (List.mem_cons_of_mem c hm)
    rw [List.cons_append, List.takeWhile_cons, if_pos (by simp [hc]), ih hcs]

/-- Name recovery through `basename(...).split('.')[0]` for any join of a directory
with `name + ".npy"`: exact as long as the utterance name itself contains no dot
and no slash. -/
theorem stripName_pyJoin (X : String) (name : String)
    (hdot : ('.' : Char) ∉ name.data) (hslash : ('/' : Char) ∉ name.data) :
    stripName (pyJoin X (name ++ ".npy")) = name := by
  have hdata : (name ++ ".npy").data = name.data ++ '.' :: ['n', 'p', 'y'] := rfl
  have hBnoslash : ('/' : Char) ∉ name.data ++ '.' :: ['n', 'p', 'y'] := by
    intro hm
    rcases List.mem_append.mp hm with hm | hm
    · exact hslash hm
    · simp at hm
  have hBtake : (basenameChars (name.data ++ '.' :: ['n', 'p', 'y'])).takeWhile
      (fun c => c ≠ '.') = name.data := by
    rw [basenameChars_no_slash hBnoslash, takeWhile_append_stop _ hdot]
  have hBhead : (name.data ++ '.' :: ['n', 'p', 'y']).head? ≠ some '/' := by
    cases hnd : name.data with
    | nil => simp
    | cons c cs =>
      have hc : c ≠ '/' := fun hc => hslash (by rw [hnd, hc]; exact List.mem_cons_self _ _)
      simp [hc]
  show String.mk ((basenameChars (joinChars X.data (name ++ ".npy").data)).takeWhile
    (fun c => c ≠ '.')) = name
  rw [hdata]
  unfold joinChars
  rw [if_neg hBhead]
  by_cases hX : X.data.getLast? = some '/' ∨ X.data = []
  · rw [if_pos hX]
    rcases hX with hX | hX
    · obtain ⟨ys, hys⟩ := List.getLast?_eq_some_iff.mp hX
      rw [hys, List.append_assoc]
      show String.mk ((basenameChars (ys ++ '/' :: (name.data ++ '.' :: ['n', 'p', 'y']))).takeWhile
        (fun c => c ≠ '.')) = name
      rw [basenameChars_append_slash, hBtake]
    · rw [hX, List.nil_append, hBtake]
  · rw [if_neg hX, basenameChars_append_slash, hBtake]

/-! ### Length of the sorted dict -/

theorem insertByCount_length (p : String × Nat) (l : List (String × Nat)) :
    (insertByCount p l).length = l.length + 1 := by
  induction l with
  | nil => rfl
  | cons q qs ih =>
    unfold insertByCount
    split
    · rfl
    · simp [ih]

theorem sortByCount_length (l : List (String × Nat)) :
    (sortByCount l).length = l.length := by
  unfold sortByCount
  induction l with
  | nil => rfl
  | cons p ps ih =>
    simp only [List.foldr_cons, insertByCount_length, ih, List.length_cons]

/-! ### The claims -/

/-- C4: constructing a `DataSet` with a split name outside the five recognized
values (train, dev, eval1, eval2, eval3) fails immediately with the
invalid-argument `ValueError` — independently of every other argument, of the
corpus index and of the filesystem, as nothing has been loaded yet — while
construction with any of the five recognized names passes this validation (it
can never produce that `ValueError`). -/
theorem claim_c4 :
    (∀ data_type train_data_size label_type num_stack num_skip is_sorted
        frame_num_dict env, data_type ∉ validDataTypes →
      DataSet.init data_type train_data_size label_type num_stack num_skip
        is_sorted frame_num_dict env = Except.error PyErr.valueError) ∧
    (∀ data_type train_data_size label_type num_stack num_skip is_sorted
        frame_num_dict env, data_type ∈ validDataTypes →
      DataSet.init data_type train_data_size label_type num_stack num_skip
        is_sorted frame_num_dict env ≠ Except.error PyErr.valueError) := by
  constructor
  · intro dt tds lt ns nk srt dict env hdt
    simp only [DataSet.init]
    rw [if_pos hdt]
  · intro dt tds lt ns nk srt dict env hdt
    cases ns with
    | none =>
      simp only [DataSet.init]
      rw [if_neg (not_not_intro hdt)]
      simp
    | some st =>
      simp only [DataSet.init]
      rw [if_neg (not_not_intro hdt)]
      by_cases htr : dt = "train" ∨ dt = "train_all"
      · rw [if_pos htr]
        by_cases hd : tds = "default"
        · rw [if_pos hd]
          simp
        · rw [if_neg hd]
          by_cases hl : tds = "large"
          · rw [if_pos hl]
            simp
          · rw [if_neg hl]
            simp
      · rw [if_neg htr]
        simp

/-- Witness for C4: the split name `test` is rejected with `ValueError`; the
recognized name `eval1` is not. -/
theorem claim_c4_witness :
    DataSet.init ("test") ("default") ("kanji") none none true [] emptyEnv =
      Except.error PyErr.valueError ∧
    DataSet.init ("eval1") ("default") ("kanji") none none true [] emptyEnv ≠
      Except.error PyErr.valueError :=
  ⟨claim_c4.1 ("test") ("default") ("kanji") none none true [] emptyEnv
      (by decide),
    claim_c4.2 ("eval1") ("default") ("kanji") none none true [] emptyEnv
      (by decide)⟩

/-- C10: although frame stacking is applied only when both `num_stack` and
`num_skip` are non-`None`, construction with `num_stack = None` (the documented
default) always fails — with a `TypeError` from `123 * None` — before any data
is loaded, for every recognized split and independently of the corpus index and
filesystem; hence a construction that returns a reader must have been given an
integer `num_stack`, and the reader's feature width is `123 * num_stack`. -/
theorem claim_c10 :
    (∀ data_type train_data_size label_type num_skip is_sorted frame_num_dict env,
      data_type ∈ validDataTypes →
      DataSet.init data_type train_data_size label_type none num_skip is_sorted
        frame_num_dict env = Except.error PyErr.typeError) ∧
    (∀ data_type train_data_size label_type num_stack num_skip is_sorted
        frame_num_dict env ds,
      DataSet.init data_type train_data_size label_type num_stack num_skip
        is_sorted frame_num_dict env = Except.ok ds →
      ∃ st, num_stack = some st ∧ ds.num_stack = some st ∧
        ds.input_size = 123 * st) := by
  constructor
  · intro dt tds lt nk srt dict env hdt
    simp only [DataSet.init]
    rw [if_neg (not_not_intro hdt)]
  · intro dt tds lt ns nk srt dict env ds h
    cases ns with
    | none =>
      simp only [DataSet.init] at h
      split at h
      · cases h
      · cases h
    | some st =>
      simp only [DataSet.init] at h
      split at h
      · cases h
      · refine ⟨st, rfl, ?_⟩
        split at h
        · split at h
          · cases h
          · cases h
            exact ⟨rfl, rfl⟩
        · cases h
          exact ⟨rfl, rfl⟩

/-- Witness for C10 at concrete inputs: with `num_stack = None` construction of a
`dev` reader raises `TypeError`; with `num_stack = 0` it succeeds and records
`num_stack` and feature width `123 * 0`. -/
theorem claim_c10_witness :
    DataSet.init ("dev") ("default") ("kanji") none none true [] emptyEnv =
      Except.error PyErr.typeError ∧
    (∃ st, (some 0 : Option Nat) = some st ∧ csjDS0.num_stack = some st ∧
      csjDS0.input_size = 123 * st) :=
  ⟨claim_c10.1 ("dev") ("default") ("kanji") none true [] emptyEnv (by decide),
    claim_c10.2 ("dev") ("default") ("kanji") (some 0) none true csjDict csjEnv
      csjDS0 (by decide)⟩

/-- C5: for a training-split reader over a recognized corpus-size variant, the
per-cluster size equals `(total / num_cluster / 128) * 128` (nested floor
divisions) with `num_cluster = 10` for the `default` variant and `15` for
`large`; the cluster size is a multiple of 128, at most `total / num_cluster`,
and the first cluster's path slice has exactly that many entries. -/
theorem claim_c5 (train_data_size label_type : String)
    (num_stack num_skip : Option Nat) (is_sorted : Bool)
    (frame_num_dict : List (String × Nat)) (env : Env) (ds : DataSet)
    (hv : train_data_size = "default" ∨ train_data_size = "large")
    (h : DataSet.init ("train") train_data_size label_type num_stack num_skip
      is_sorted frame_num_dict env = Except.ok ds) :
    ∃ nc, ds.num_cluster = some nc ∧
      (train_data_size = "default" → nc = 10) ∧
      (train_data_size = "large" → nc = 15) ∧
      ds.data_num = frame_num_dict.length ∧
      ds.data_num_cluster = ds.data_num / nc / 128 * 128 ∧
      128 ∣ ds.data_num_cluster ∧
      ds.data_num_cluster ≤ ds.data_num / nc ∧
      ds.input_paths_cluster.length = ds.data_num_cluster := by
  cases num_stack with
  | none =>
    simp only [DataSet.init] at h
    rw [if_neg (by decide : ¬ ("train" : String) ∉ validDataTypes)] at h
    cases h
  | some st =>
    simp only [DataSet.init] at h
    rw [if_neg (by decide : ¬ ("train" : String) ∉ validDataTypes)] at h
    rw [if_pos (show True ∨ ("train" : String) = "train_all" from Or.inl trivial)]
      at h
    have hL : ∀ n : Nat, (List.take n (List.map
        (fun p => inputPathOf label_type train_data_size ("train") p.1)
        (sortByCount frame_num_dict))).length = min n frame_num_dict.length := by
      intro n
      rw [List.length_take, List.length_map, sortByCount_length]
    rcases hv with hv | hv
    · subst hv
      rw [if_pos rfl] at h
      cases h
      refine ⟨10, rfl, fun _ => rfl, fun hc => absurd hc (by decide), rfl, rfl,
        dvd_mul_left 128 _, Nat.div_mul_le_self _ 128, ?_⟩
      show (List.take (frame_num_dict.length / 10 / 128 * 128)
        (List.map (fun p => inputPathOf label_type ("default") ("train") p.1)
          (sortByCount frame_num_dict))).length =
        frame_num_dict.length / 10 / 128 * 128
      rw [hL]
      exact Nat.min_eq_left (le_trans (Nat.div_mul_le_self _ 128)
        (Nat.div_le_self _ 10))
    · subst hv
      rw [if_neg (by decide : ¬ ("large" : String) = "default"), if_pos rfl] at h
      cases h
      refine ⟨15, rfl, fun hc => absurd hc (by decide), fun _ => rfl, rfl, rfl,
        dvd_mul_left 128 _, Nat.div_mul_le_self _ 128, ?_⟩
      show (List.take (frame_num_dict.length / 15 / 128 * 128)
        (List.map (fun p => inputPathOf label_type ("large") ("train") p.1)
          (sortByCount frame_num_dict))).length =
        frame_num_dict.length / 15 / 128 * 128
      rw [hL]
      exact Nat.min_eq_left (le_trans (Nat.div_mul_le_self _ 128)
        (Nat.div_le_self _ 15))

/-- Witness for C5: the `default` training reader over the three-utterance corpus
has cluster size `(3 / 10 / 128) * 128 = 0`, a multiple of 128 not above
`3 / 10`, and an empty first cluster slice. -/
theorem claim_c5_witness :
    ∃ nc, ((DataSet.init ("train") ("default") ("kanji") (some 0) none true
        csjDict csjEnv).toOption.getD dummyDS).num_cluster = some nc ∧
      (("default" : String) = "default" → nc = 10) ∧
      (("default" : String) = "large" → nc = 15) ∧
      ((DataSet.init ("train") ("default") ("kanji") (some 0) none true
        csjDict csjEnv).toOption.getD dummyDS).data_num = csjDict.length ∧
      ((DataSet.init ("train") ("default") ("kanji") (some 0) none true
        csjDict csjEnv).toOption.getD dummyDS).data_num_cluster =
        ((DataSet.init ("train") ("default") ("kanji") (some 0) none true
          csjDict csjEnv).toOption.getD dummyDS).data_num / nc / 128 * 128 ∧
      128 ∣ ((DataSet.init ("train") ("default") ("kanji") (some 0) none true
        csjDict csjEnv).toOption.getD dummyDS).data_num_cluster ∧
      ((DataSet.init ("train") ("default") ("kanji") (some 0) none true
        csjDict csjEnv).toOption.getD dummyDS).data_num_cluster ≤
        ((DataSet.init ("train") ("default") ("kanji") (some 0) none true
          csjDict csjEnv).toOption.getD dummyDS).data_num / nc ∧
      ((DataSet.init ("train") ("default") ("kanji") (some 0) none true
        csjDict csjEnv).toOption.getD dummyDS).input_paths_cluster.length =
        ((DataSet.init ("train") ("default") ("kanji") (some 0) none true
          csjDict csjEnv).toOption.getD dummyDS).data_num_cluster :=
  claim_c5 ("default") ("kanji") (some 0) none true csjDict csjEnv
    ((DataSet.init ("train") ("default") ("kanji") (some 0) none true
      csjDict csjEnv).toOption.getD dummyDS) (Or.inl rfl) (by decide)

/-- The names produced by the assembly loop are the stripped basenames of the
selected indices' cluster paths, in selection order. -/
theorem exMap_nameOf_map {ds : DataSet} {idxs : List Nat} {names : List String}
    (h : exMap ds.nameOf idxs = Except.ok names) :
    names = idxs.map (fun x => stripName (ds.input_paths_cluster.getD x (""))) := by
  have hf := exMap_ok_iff.mp h
  clear h
  induction hf with
  | nil => rfl
  | @cons x nm xs nms hxy hrest ih =>
    obtain ⟨p, hp, hnm⟩ := nameOf_ok_iff.mp hxy
    rw [List.map_cons, ← ih]
    have hpd : ds.input_paths_cluster.getD x ("") = p := by
      rw [List.getD_eq_getElem?_getD, hp]
      rfl
    rw [hpd, hnm]

/-- C1: in sorted mode, while the unconsumed set holds more than `batch_size`
indices, `next_batch` selects exactly the first `batch_size` entries of the
ascending (frame-count-sorted) unconsumed set — the shortest remaining
utterances — not a random sample: the batch's name list is a permutation of the
names of `rest.take batch_size`, the new unconsumed set is `rest.drop
batch_size`, and every selected index precedes every remaining one.  Concretely,
with frame-count index `{a:5, b:3, c:8}` and `batch_size = 2`, the first batch
holds exactly `{b, a}` and the second exactly `{c}`. -/
theorem claim_c1 :
    (∀ (ds : DataSet) (b : Nat) (shuffle : List Nat → List Nat) (env : Env)
        (batch : Batch) (ds' : DataSet),
      List.Sorted (· < ·) ds.rest →
      ds.next_cluster_flag = false →
      0 < b →
      (ds.rest.length : Int) > (b : Int) →
      (∀ l, (shuffle l).Perm l) →
      ds.nextBatchSorted (b : Int) shuffle env = Except.ok (batch, ds') →
      ds.selectionSorted (b : Int) = ds.rest.take b ∧
      batch.input_names.Perm ((ds.rest.take b).map
        (fun x => stripName (ds.input_paths_cluster.getD x ("")))) ∧
      ds'.rest = ds.rest.drop b ∧
      (∀ x ∈ ds.rest.take b, ∀ y ∈ ds'.rest, x < y)) ∧
    (DataSet.init ("dev") ("default") ("kanji") (some 0) none true csjDict csjEnv
        = Except.ok csjDS0 ∧
      csjDS0.next_batch 2 id [] csjEnv = Except.ok csjPair1 ∧
      csjPair1.1.input_names = ["b", "a"] ∧
      csjPair1.2.next_batch 2 id [] csjEnv = Except.ok csjPair2 ∧
      csjPair2.1.input_names = ["c"]) := by
  constructor
  · intro ds b shuffle env batch ds' hsorted hflag hb hgt hsh h
    have hsel : ds.selectionSorted (b : Int) = ds.rest.take b :=
      selectionSorted_of_gt hgt
    obtain ⟨last, lastArr, hlast, harr, hasm, hstate⟩ := nextBatchSorted_ok_inv h
    have hnames : batch.input_names = (shuffle (ds.selectionSorted (b : Int))).map
        (fun x => stripName (ds.input_paths_cluster.getD x (""))) :=
      exMap_nameOf_map (assemble_ok_iff.mp hasm).2.2.2
    have hperm : batch.input_names.Perm ((ds.rest.take b).map
        (fun x => stripName (ds.input_paths_cluster.getD x ("")))) := by
      rw [hnames, ← hsel]
      exact List.Perm.map _ (hsh _)
    have hflag1 : (if (ds.rest.length : Int) > (b : Int) then ds.next_cluster_flag
        else if ds.data_type = "train" then true else ds.next_cluster_flag)
        = false := by
      rw [if_pos hgt, hflag]
    have hds' : ds'.rest = ds.rest.drop b := by
      rcases hstate with ⟨_, hds⟩ | ⟨hfl, _⟩
      · rw [hds]
        show (if (ds.rest.length : Int) > (b : Int) then
            ds.rest.filter (fun x => decide (x ∉ ds.selectionSorted (b : Int)))
          else if ds.data_type = "train" then ds.rest
          else List.range ds.input_paths_cluster.length) = ds.rest.drop b
        rw [if_pos hgt, hsel, filter_not_mem_take b hsorted]
      · rw [hflag1] at hfl
        cases hfl
    refine ⟨hsel, hperm, hds', ?_⟩
    intro x hx y hy
    rw [hds'] at hy
    exact List.Sorted.rel_of_mem_take_of_mem_drop hsorted hx hy
  · exact ⟨by decide, by decide, by decide, by decide, by decide⟩

/-- Witness for C1's general part at the concrete scenario reader: `batch_size =
2` against the three-utterance sorted `dev` reader selects indices `[0, 1]`,
leaving `[2]`. -/
theorem claim_c1_witness :
    csjDS0.selectionSorted ((2 : Nat) : Int) = csjDS0.rest.take 2 ∧
    csjPair1.1.input_names.Perm ((csjDS0.rest.take 2).map
      (fun x => stripName (csjDS0.input_paths_cluster.getD x ("")))) ∧
    csjPair1.2.rest = csjDS0.rest.drop 2 ∧
    (∀ x ∈ csjDS0.rest.take 2, ∀ y ∈ csjPair1.2.rest, x < y) :=
  claim_c1.1 csjDS0 2 id csjEnv csjPair1.1 csjPair1.2 (by decide) (by decide)
    (by decide) (by decide) (fun l => List.Perm.refl l) (by decide)

/-- C8: in sorted mode, for every returned batch the maximum true frame length
among the batch's utterances equals the frame length of the last selected index
before the within-batch shuffle (`max_frame_num` is read off
`input_list[sorted_indices[-1]]`); no selected utterance is longer, and that
length is the padding width of every row of the batch tensor. -/
theorem claim_c8 (ds : DataSet) (b : Int) (shuffle : List Nat → List Nat)
    (env : Env) (batch : Batch) (ds' : DataSet)
    (hsh : ∀ l, (shuffle l).Perm l)
    (h : ds.nextBatchSorted b shuffle env = Except.ok (batch, ds')) :
    ∃ last lastArr, (ds.selectionSorted b).getLast? = some last ∧
      ds.input_list[last]? = some lastArr ∧
      batch.seq_len.max? = some lastArr.length ∧
      (∀ fn ∈ batch.seq_len, fn ≤ lastArr.length) ∧
      (∀ row ∈ batch.input_data, row.length = lastArr.length) := by
  obtain ⟨last, lastArr, hlast, harr, hasm, _⟩ := nextBatchSorted_ok_inv h
  have hlens := assemble_ok_lengths hasm
  have hbound : ∀ fn ∈ batch.seq_len, fn ≤ lastArr.length := by
    intro fn hfn
    obtain ⟨n, hn⟩ := List.mem_iff_get.mp hfn
    have hi : n.1 < (shuffle (ds.selectionSorted b)).length :=
      lt_of_lt_of_eq n.2 hlens.2.2.1
    obtain ⟨arr, p, _, hle, _, _, hsl, _, _⟩ := assemble_ok_get hasm n.1 hi
    have heq : batch.seq_len.get n = arr.length := by
      rw [List.get_eq_getElem]
      exact Option.some.inj ((List.getElem?_eq_getElem _).symm.trans hsl)
    rw [← hn, heq]
    exact hle
  have hattained : lastArr.length ∈ batch.seq_len := by
    have hlastmem : last ∈ shuffle (ds.selectionSorted b) := by
      have h1 : last ∈ ds.selectionSorted b := by
        obtain ⟨ys, hys⟩ := List.getLast?_eq_some_iff.mp hlast
        rw [hys]
        simp
      exact (hsh _).mem_iff.mpr h1
    obtain ⟨n, hn⟩ := List.mem_iff_get.mp hlastmem
    obtain ⟨arr, p, ha, _, _, _, hsl, _, _⟩ := assemble_ok_get hasm n.1 n.2
    have hget : (shuffle (ds.selectionSorted b)).get ⟨n.1, n.2⟩ = last := hn
    rw [hget, harr] at ha
    cases ha
    exact List.getElem?_mem hsl
  refine ⟨last, lastArr, hlast, harr,
    List.max?_eq_some_iff'.mpr ⟨hattained, hbound⟩, hbound, ?_⟩
  intro row hrow
  obtain ⟨n, hn⟩ := List.mem_iff_get.mp hrow
  have hi : n.1 < (shuffle (ds.selectionSorted b)).length :=
    lt_of_lt_of_eq n.2 hlens.1
  obtain ⟨arr, p, _, hle, _, hrw, _, _, _⟩ := assemble_ok_get hasm n.1 hi
  have heq : batch.input_data.get n = arr ++ List.replicate
      (lastArr.length - arr.length) (List.replicate ds.input_size 0) := by
    rw [List.get_eq_getElem]
    exact Option.some.inj ((List.getElem?_eq_getElem _).symm.trans hrw)
  rw [← hn, heq]
  exact padded_length hle

/-- Witness for C8 at the concrete scenario reader: the first batch (`batch_size
= 2`) is padded to the length of index 1's array (5 frames), the maximum and
bound of its true lengths. -/
theorem claim_c8_witness :
    ∃ last lastArr, (csjDS0.selectionSorted 2).getLast? = some last ∧
      csjDS0.input_list[last]? = some lastArr ∧
      csjPair1.1.seq_len.max? = some lastArr.length ∧
      (∀ fn ∈ csjPair1.1.seq_len, fn ≤ lastArr.length) ∧
      (∀ row ∈ csjPair1.1.input_data, row.length = lastArr.length) :=
  claim_c8 csjDS0 2 id csjEnv csjPair1.1 csjPair1.2
    (fun l => List.Perm.refl l) (by decide)

/-- Whenever `num_cluster` is set, the cluster advance of lines 179-198 cannot
raise: every branch only slices the path arrays and reloads, and afterwards the
unconsumed set covers the (new) cluster and the flag is clear. -/
theorem advanceCluster_succeeds (ds1 : DataSet) (env : Env) {nc : Nat}
    (hnc : ds1.num_cluster = some nc) :
    ∃ ds2, ds1.advanceCluster env = Except.ok ds2 ∧
      ds2.rest = List.range ds2.input_paths_cluster.length ∧
      ds2.next_cluster_flag = false := by
  unfold DataSet.advanceCluster
  by_cases hrc : 1 ≤ ds1.rest_cluster
  · rw [if_pos hrc, hnc]
    refine ⟨_, rfl, ?_, rfl⟩
    simp [DataSet.next_cluster]
  · rw [if_neg hrc]
    by_cases hdt : ds1.data_type = "train"
    · rw [if_pos hdt, hnc]
      refine ⟨_, rfl, ?_, rfl⟩
      simp [DataSet.next_cluster]
    · rw [if_neg hdt]
      refine ⟨_, rfl, ?_, rfl⟩
      simp [DataSet.next_cluster]

/-- Unfolding equation for a sorted-mode training call at the cluster boundary:
the flag is set, the batch is built over all of `rest`, and the state returned
is the advanced one. -/
theorem nextBatchSorted_train_boundary_eq (ds : DataSet) (b : Int)
    (shuffle : List Nat → List Nat) (env : Env) {last : Nat}
    {lastArr : InputArray} {batch : Batch} {ds2 : DataSet}
    (hlast : (ds.selectionSorted b).getLast? = some last)
    (harr : ds.input_list[last]? = some lastArr)
    (hasm : ds.assemble lastArr.length (shuffle (ds.selectionSorted b)) =
      Except.ok batch)
    (hle : ¬ (ds.rest.length : Int) > b)
    (hdt : ds.data_type = "train")
    (hadv : DataSet.advanceCluster { ds with next_cluster_flag := true } env =
      Except.ok ds2) :
    ds.nextBatchSorted b shuffle env = Except.ok (batch, ds2) := by
  have hAF : afterFlag batch { ds with next_cluster_flag := true } true env =
      Except.ok (batch, ds2) := by
    unfold afterFlag
    rw [hadv]
    rfl
  simp only [DataSet.nextBatchSorted, hlast, harr, hasm, if_neg hle, if_pos hdt]
  exact hAF

/-- A well-formed sorted-mode training reader whose call exhausts the cluster
(`batch_size ≥ len(rest)`, `rest` nonempty) completes without error — the
batch holds everything unconsumed, the cluster advance and reload run, and the
unconsumed set is refilled over the new cluster with the flag cleared.
`num_cluster` being set is what training construction always establishes. -/
theorem nextBatchSorted_train_boundary_ok (ds : DataSet) (b : Int)
    (shuffle : List Nat → List Nat) (env : Env) (nc : Nat)
    (hready : ds.Ready) (hlen : ds.LengthSorted)
    (hsh : ∀ l, (shuffle l).Perm l)
    (hne : ds.rest ≠ []) (hdt : ds.data_type = "train")
    (hnc : ds.num_cluster = some nc)
    (hle : ¬ (ds.rest.length : Int) > b) :
    ∃ batch ds', ds.nextBatchSorted b shuffle env = Except.ok (batch, ds') ∧
      batch.input_names.length = ds.rest.length ∧
      ds'.rest = List.range ds'.input_paths_cluster.length ∧
      ds'.next_cluster_flag = false := by
  obtain ⟨hl1, hl2, hmem, hsorted, hwid⟩ := hready
  have hselne : ds.selectionSorted b ≠ [] := by
    rw [selectionSorted_of_le hle]
    exact hne
  have hlastsome : (ds.selectionSorted b).getLast?.isSome := by
    rw [List.getLast?_isSome]
    exact hselne
  obtain ⟨last, hlast⟩ := Option.isSome_iff_exists.mp hlastsome
  have hlastmem : last ∈ ds.selectionSorted b := by
    obtain ⟨ys, hys⟩ := List.getLast?_eq_some_iff.mp hlast
    rw [hys]
    simp
  have hlastrest : last ∈ ds.rest := selectionSorted_subset last hlastmem
  have hlastlt : last < ds.input_list.length := hmem last hlastrest
  have harr : ds.input_list[last]? = some (ds.input_list.getD last []) :=
    getElem?_eq_some_getD hlastlt []
  have hselsub : ∀ x ∈ shuffle (ds.selectionSorted b), x ∈ ds.rest := by
    intro x hx
    exact selectionSorted_subset x ((hsh _).mem_iff.mp hx)
  have hin : ∀ x ∈ shuffle (ds.selectionSorted b), x < ds.input_list.length :=
    fun x hx => hmem x (hselsub x hx)
  have hselSorted : List.Sorted (· < ·) (ds.selectionSorted b) :=
    List.Pairwise.sublist (selectionSorted_sublist ds b) hsorted
  have hle2 : ∀ x ∈ shuffle (ds.selectionSorted b),
      (ds.input_list.getD x []).length ≤ (ds.input_list.getD last []).length := by
    intro x hx
    have hxle : x ≤ last :=
      sorted_le_getLast hselSorted hlast x ((hsh _).mem_iff.mp hx)
    exact lengthSorted_le hlen hxle (hin x hx) hlastlt
  have hasm := assemble_ok_of ds (ds.input_list.getD last []).length
      (shuffle (ds.selectionSorted b)) hin
      (fun x hx => by rw [hl2, ← hl1]; exact hin x hx)
      (fun x hx => by rw [← hl1]; exact hin x hx)
      hle2 hwid
  obtain ⟨ds2, hadv, hrest2, hflag2⟩ :=
    advanceCluster_succeeds { ds with next_cluster_flag := true } env hnc
  refine ⟨_, ds2,
    nextBatchSorted_train_boundary_eq ds b shuffle env hlast harr hasm hle hdt
      hadv, ?_, hrest2, hflag2⟩
  show ((shuffle (ds.selectionSorted b)).map _).length = _
  rw [List.length_map, (hsh _).length_eq, selectionSorted_of_le hle]

/-- Counterexample to C3 as stated: `batch_size = 0` satisfies `batch_size ≤ 0`,
yet calling `next_batch` on the scenario reader (three unconsumed utterances in
its cluster) raises `IndexError` — the selection is empty and line 156 indexes
`sorted_indices[-1]` — rather than returning a single batch with everything and
no error. -/
theorem claim_c3_counterexample :
    ((0 : Int) ≤ 0) ∧ csjDS0.rest.length = 3 ∧
      csjDS0.next_batch 0 id [] csjEnv = Except.error PyErr.indexError :=
  ⟨le_refl 0, by decide, by decide⟩

/-- C3 amended: a `batch_size` at least the unconsumed count degenerates, with
no error, to a single batch containing everything in the current cluster — in
sorted non-training mode and in unsorted mode with the unconsumed set refilled
directly, and in sorted training mode (where `num_cluster` is always set by
construction) with the cluster advance and reload of lines 178-198 running
without error and refilling the unconsumed set over the new cluster; but
`batch_size ≤ 0` does not behave that way: on a nonempty cluster, `batch_size
= 0` raises `IndexError` in sorted mode and `ValueError` (`max` of an empty
sequence) in unsorted mode, and a negative `batch_size` raises `ValueError`
(`random.sample`) in unsorted mode. -/
theorem claim_c3_amended :
    (∀ (ds : DataSet) (b : Int) (shuffle : List Nat → List Nat) (env : Env),
      ds.Ready → ds.LengthSorted → (∀ l, (shuffle l).Perm l) →
      ds.rest ≠ [] → ds.next_cluster_flag = false → ds.data_type ≠ "train" →
      ¬ (ds.rest.length : Int) > b →
      ∃ batch ds', ds.nextBatchSorted b shuffle env = Except.ok (batch, ds') ∧
        batch.input_names.length = ds.rest.length ∧
        ds'.rest = List.range ds.input_paths_cluster.length) ∧
    (∀ (ds : DataSet) (b : Int) (shuffle : List Nat → List Nat) (env : Env)
        (nc : Nat),
      ds.Ready → ds.LengthSorted → (∀ l, (shuffle l).Perm l) →
      ds.rest ≠ [] → ds.data_type = "train" → ds.num_cluster = some nc →
      ¬ (ds.rest.length : Int) > b →
      ∃ batch ds', ds.nextBatchSorted b shuffle env = Except.ok (batch, ds') ∧
        batch.input_names.length = ds.rest.length ∧
        ds'.rest = List.range ds'.input_paths_cluster.length ∧
        ds'.next_cluster_flag = false) ∧
    (∀ (ds : DataSet) (b : Int) (shuffle : List Nat → List Nat)
        (sample : List Nat) (env : Env),
      ds.Ready → (∀ l, (shuffle l).Perm l) → ds.rest ≠ [] →
      ¬ (ds.rest.length : Int) > b →
      ∃ batch, ds.nextBatchUnsorted b sample shuffle env = Except.ok (batch,
          { ds with rest := List.range ds.input_paths_cluster.length }) ∧
        batch.input_names.length = ds.rest.length) ∧
    (∀ (ds : DataSet) (shuffle : List Nat → List Nat) (env : Env),
      ds.rest ≠ [] →
      ds.nextBatchSorted 0 shuffle env = Except.error PyErr.indexError) ∧
    (∀ (ds : DataSet) (shuffle : List Nat → List Nat) (env : Env),
      ds.rest ≠ [] →
      ds.nextBatchUnsorted 0 [] shuffle env = Except.error PyErr.valueError) ∧
    (∀ (ds : DataSet) (b : Int) (sample : List Nat)
        (shuffle : List Nat → List Nat) (env : Env), b < 0 →
      ds.nextBatchUnsorted b sample shuffle env = Except.error PyErr.valueError)
    := by
  refine ⟨?_, ?_, ?_, ?_, ?_, ?_⟩
  · intro ds b shuffle env hready hlen hsh hne hflag hdt hle
    have hselne : ds.selectionSorted b ≠ [] := by
      rw [selectionSorted_of_le hle]
      exact hne
    obtain ⟨last, lastArr, hlast, harr, heq⟩ :=
      nextBatchSorted_ok ds b shuffle env hready hlen hsh hselne hflag
        (Or.inr hdt)
    refine ⟨_, _, heq, ?_, ?_⟩
    · show ((shuffle (ds.selectionSorted b)).map _).length = _
      rw [List.length_map, (hsh _).length_eq, selectionSorted_of_le hle]
    · show (if (ds.rest.length : Int) > b then _ else _) = _
      rw [if_neg hle]
  · intro ds b shuffle env nc hready hlen hsh hne hdt hnc hle
    exact nextBatchSorted_train_boundary_ok ds b shuffle env nc hready hlen
      hsh hne hdt hnc hle
  · intro ds b shuffle sample env hready hsh hne hle
    exact nextBatchUnsorted_ok_all ds b shuffle sample env hready hsh hne hle
  · intro ds shuffle env hne
    have hgt : (ds.rest.length : Int) > 0 := by
      have h0 : 0 < ds.rest.length := List.length_pos.mpr hne
      exact_mod_cast h0
    have hsel : ds.selectionSorted 0 = [] := by
      unfold DataSet.selectionSorted sortedSelect pySliceTo
      rw [if_pos hgt, if_pos (le_refl (0 : Int))]
      simp
    simp [DataSet.nextBatchSorted, hsel]
  · intro ds shuffle env hne
    have hgt : (ds.rest.length : Int) > 0 := by
      have h0 : 0 < ds.rest.length := List.length_pos.mpr hne
      exact_mod_cast h0
    simp only [DataSet.nextBatchUnsorted]
    rw [if_neg (fun hc => absurd hc.2 (by decide)), if_pos hgt]
    rfl
  · intro ds b sample shuffle env hb
    have hgt : (ds.rest.length : Int) > b :=
      lt_of_lt_of_le hb (Int.ofNat_nonneg _)
    simp only [DataSet.nextBatchUnsorted]
    rw [if_pos ⟨hgt, hb⟩]

/-- Witness for C3's amended statement at concrete inputs: `batch_size = 5`
against the three-utterance reader returns everything in one batch;
`batch_size = 1` against the one-utterance training cluster returns everything
and advances the cluster without error; `batch_size = 0` errors in both modes;
`batch_size = -1` errors in unsorted mode. -/
theorem claim_c3_witness :
    (∃ batch ds', csjDS0.nextBatchSorted 5 id csjEnv = Except.ok (batch, ds') ∧
      batch.input_names.length = csjDS0.rest.length ∧
      ds'.rest = List.range csjDS0.input_paths_cluster.length) ∧
    (∃ batch ds', advDS.nextBatchSorted 1 id advEnv = Except.ok (batch, ds') ∧
      batch.input_names.length = advDS.rest.length ∧
      ds'.rest = List.range ds'.input_paths_cluster.length ∧
      ds'.next_cluster_flag = false) ∧
    (∃ batch, csjDS0u.nextBatchUnsorted 5 [] id csjEnv = Except.ok (batch,
        { csjDS0u with rest := List.range csjDS0u.input_paths_cluster.length }) ∧
      batch.input_names.length = csjDS0u.rest.length) ∧
    csjDS0.nextBatchSorted 0 id csjEnv = Except.error PyErr.indexError ∧
    csjDS0u.nextBatchUnsorted 0 [] id csjEnv = Except.error PyErr.valueError ∧
    csjDS0u.nextBatchUnsorted (-1) [] id csjEnv = Except.error PyErr.valueError :=
  ⟨claim_c3_amended.1 csjDS0 5 id csjEnv (by decide) (by decide)
      (fun l => List.Perm.refl l) (by decide) (by decide) (by decide) (by decide),
    claim_c3_amended.2.1 advDS 1 id advEnv 2 (by decide) (by decide)
      (fun l => List.Perm.refl l) (by decide) (by decide) (by decide) (by decide),
    claim_c3_amended.2.2.1 csjDS0u 5 id [] csjEnv (by decide)
      (fun l => List.Perm.refl l) (by decide) (by decide),
    claim_c3_amended.2.2.2.1 csjDS0 id csjEnv (by decide),
    claim_c3_amended.2.2.2.2.1 csjDS0u id csjEnv (by decide),
    claim_c3_amended.2.2.2.2.2 csjDS0u (-1) [] id csjEnv (by decide)⟩

/-- Shape facts shared by both modes: a successfully assembled batch has one
row, label, length and name per selected index; every true length is bounded by
the padding width; every row has the padding width and feature-wide cells; and
each row is a loaded array right-padded with zero feature vectors. -/
theorem batch_shape_of_assemble {ds : DataSet} {maxf : Nat} {idxs : List Nat}
    {batch : Batch} (hasm : ds.assemble maxf idxs = Except.ok batch) :
    batch.input_data.length = batch.seq_len.length ∧
    batch.input_data.length = batch.input_names.length ∧
    batch.input_data.length = batch.labels.length ∧
    (∀ fn ∈ batch.seq_len, fn ≤ maxf) ∧
    (∀ row ∈ batch.input_data, row.length = maxf ∧
      ∀ cell ∈ row, cell.length = ds.input_size) ∧
    (∀ i, ∀ h1 : i < batch.input_data.length, ∀ h2 : i < batch.seq_len.length,
      ∃ arr, arr ∈ ds.input_list ∧
        arr.length = batch.seq_len.get ⟨i, h2⟩ ∧
        (batch.input_data.get ⟨i, h1⟩).take arr.length = arr ∧
        ∀ t, arr.length ≤ t → t < maxf →
          (batch.input_data.get ⟨i, h1⟩).getD t [] =
            List.replicate ds.input_size 0) := by
  have hlens := assemble_ok_lengths hasm
  refine ⟨hlens.1.trans hlens.2.2.1.symm, hlens.1.trans hlens.2.2.2.symm,
    hlens.1.trans hlens.2.1.symm, ?_, ?_, ?_⟩
  · intro fn hfn
    obtain ⟨n, hn⟩ := List.mem_iff_get.mp hfn
    have hi : n.1 < idxs.length := lt_of_lt_of_eq n.2 hlens.2.2.1
    obtain ⟨arr, p, _, hle, _, _, hsl, _, _⟩ := assemble_ok_get hasm n.1 hi
    have heq : batch.seq_len.get n = arr.length := by
      rw [List.get_eq_getElem]
      exact Option.some.inj ((List.getElem?_eq_getElem _).symm.trans hsl)
    rw [← hn, heq]
    exact hle
  · intro row hrow
    obtain ⟨n, hn⟩ := List.mem_iff_get.mp hrow
    have hi : n.1 < idxs.length := lt_of_lt_of_eq n.2 hlens.1
    obtain ⟨arr, p, _, hle, hwid, hrw, _, _, _⟩ := assemble_ok_get hasm n.1 hi
    have heq : batch.input_data.get n = arr ++ List.replicate
        (maxf - arr.length) (List.replicate ds.input_size 0) := by
      rw [List.get_eq_getElem]
      exact Option.some.inj ((List.getElem?_eq_getElem _).symm.trans hrw)
    rw [← hn, heq]
    exact ⟨padded_length hle, padded_cell_length hwid⟩
  · intro i h1 h2
    have hi : i < idxs.length := lt_of_lt_of_eq h1 hlens.1
    obtain ⟨arr, p, ha, hle, _, hrw, hsl, _, _⟩ := assemble_ok_get hasm i hi
    have heqrow : batch.input_data.get ⟨i, h1⟩ = arr ++ List.replicate
        (maxf - arr.length) (List.replicate ds.input_size 0) := by
      rw [List.get_eq_getElem]
      exact Option.some.inj ((List.getElem?_eq_getElem _).symm.trans hrw)
    have heqlen : batch.seq_len.get ⟨i, h2⟩ = arr.length := by
      rw [List.get_eq_getElem]
      exact Option.some.inj ((List.getElem?_eq_getElem _).symm.trans hsl)
    refine ⟨arr, List.getElem?_mem ha, heqlen.symm, ?_, ?_⟩
    · rw [heqrow]
      exact padded_take
    · intro t ht1 ht2
      rw [heqrow]
      exact padded_getD_of_le ht1 ht2

/-- If some selected index's loaded array has exactly the padding width as its
length, that width occurs among the batch's true lengths. -/
theorem seq_len_attained {ds : DataSet} {maxf : Nat} {idxs : List Nat}
    {batch : Batch} {x : Nat} {arr : InputArray}
    (hasm : ds.assemble maxf idxs = Except.ok batch)
    (hx : x ∈ idxs) (ha : ds.input_list[x]? = some arr)
    (hlen : arr.length = maxf) : maxf ∈ batch.seq_len := by
  obtain ⟨n, hn⟩ := List.mem_iff_get.mp hx
  obtain ⟨arr2, p, ha2, _, _, _, hsl, _, _⟩ := assemble_ok_get hasm n.1 n.2
  have hget : idxs.get ⟨n.1, n.2⟩ = x := hn
  rw [hget, ha] at ha2
  cases ha2
  rw [← hlen]
  exact List.getElem?_mem hsl

/-- C2: every batch returned by `next_batch` — in sorted and unsorted mode alike
— is a zero-padded `(selected-count) × max_frame_num × input_size` tensor: the
data rows, true-length vector, name list and label list all have the selected
count; a single padded width `M` is shared by all rows, bounds every recorded
true length and is attained by one of them (`M` is the largest frame count among
the selected utterances); each row carries a loaded utterance's feature array in
its first `seq_len[i]` timesteps, every timestep at or beyond that recorded true
length is exactly the zero feature vector, and every feature frame has width
`input_size`. -/
theorem claim_c2 (ds : DataSet) (b : Int) (shuffle : List Nat → List Nat)
    (sample : List Nat) (env : Env) (batch : Batch) (ds' : DataSet)
    (hsh : ∀ l, (shuffle l).Perm l)
    (h : ds.next_batch b shuffle sample env = Except.ok (batch, ds')) :
    batch.input_data.length = batch.seq_len.length ∧
    batch.input_data.length = batch.input_names.length ∧
    batch.input_data.length = batch.labels.length ∧
    ∃ M, M ∈ batch.seq_len ∧ (∀ fn ∈ batch.seq_len, fn ≤ M) ∧
      (∀ row ∈ batch.input_data, row.length = M ∧
        ∀ cell ∈ row, cell.length = ds.input_size) ∧
      (∀ i, ∀ h1 : i < batch.input_data.length, ∀ h2 : i < batch.seq_len.length,
        ∃ arr, arr ∈ ds.input_list ∧
          arr.length = batch.seq_len.get ⟨i, h2⟩ ∧
          (batch.input_data.get ⟨i, h1⟩).take arr.length = arr ∧
          ∀ t, arr.length ≤ t → t < M →
            (batch.input_data.get ⟨i, h1⟩).getD t [] =
              List.replicate ds.input_size 0) := by
  unfold DataSet.next_batch at h
  by_cases hs : ds.is_sorted = true
  · rw [if_pos hs] at h
    obtain ⟨last, lastArr, hlast, harr, hasm, _⟩ := nextBatchSorted_ok_inv h
    obtain ⟨e1, e2, e3, hbound, hrows, hpt⟩ := batch_shape_of_assemble hasm
    have hlastmem : last ∈ shuffle (ds.selectionSorted b) := by
      have h1 : last ∈ ds.selectionSorted b := by
        obtain ⟨ys, hys⟩ := List.getLast?_eq_some_iff.mp hlast
        rw [hys]
        simp
      exact (hsh _).mem_iff.mpr h1
    exact ⟨e1, e2, e3, lastArr.length,
      seq_len_attained hasm hlastmem harr rfl, hbound, hrows, hpt⟩
  · rw [if_neg hs] at h
    obtain ⟨maxf, lens, hlen, hmax, hasm, _⟩ := nextBatchUnsorted_ok_inv h
    obtain ⟨e1, e2, e3, hbound, hrows, hpt⟩ := batch_shape_of_assemble hasm
    have hmem : maxf ∈ lens := (List.max?_eq_some_iff'.mp hmax).1
    obtain ⟨n, hn⟩ := List.mem_iff_get.mp hmem
    have hf := List.forall₂_iff_get.mp (exMap_ok_iff.mp hlen)
    have hi : n.1 < (if (ds.rest.length : Int) > b then sample
        else shuffle ds.rest).length := lt_of_lt_of_eq n.2 hf.1.symm
    have hx := hf.2 n.1 hi n.2
    obtain ⟨arr, ha, hlen2⟩ := lenOf_ok_iff.mp hx
    have hxmem : (if (ds.rest.length : Int) > b then sample
        else shuffle ds.rest).get ⟨n.1, hi⟩ ∈
        (if (ds.rest.length : Int) > b then sample else shuffle ds.rest) :=
      List.get_mem _ _ _
    refine ⟨e1, e2, e3, maxf, seq_len_attained hasm hxmem ha ?_, hbound, hrows,
      hpt⟩
    rw [hlen2]
    exact hn

/-- Witness for C2 at the concrete scenario reader's first batch. -/
theorem claim_c2_witness :
    csjPair1.1.input_data.length = csjPair1.1.seq_len.length ∧
    csjPair1.1.input_data.length = csjPair1.1.input_names.length ∧
    csjPair1.1.input_data.length = csjPair1.1.labels.length ∧
    ∃ M, M ∈ csjPair1.1.seq_len ∧ (∀ fn ∈ csjPair1.1.seq_len, fn ≤ M) ∧
      (∀ row ∈ csjPair1.1.input_data, row.length = M ∧
        ∀ cell ∈ row, cell.length = csjDS0.input_size) ∧
      (∀ i, ∀ h1 : i < csjPair1.1.input_data.length,
        ∀ h2 : i < csjPair1.1.seq_len.length,
        ∃ arr, arr ∈ csjDS0.input_list ∧
          arr.length = csjPair1.1.seq_len.get ⟨i, h2⟩ ∧
          (csjPair1.1.input_data.get ⟨i, h1⟩).take arr.length = arr ∧
          ∀ t, arr.length ≤ t → t < M →
            (csjPair1.1.input_data.get ⟨i, h1⟩).getD t [] =
              List.replicate csjDS0.input_size 0) :=
  claim_c2 csjDS0 2 id [] csjEnv csjPair1.1 csjPair1.2
    (fun l => List.Perm.refl l) (by decide)

/-- Inversion of a successful cluster advance. -/
theorem advanceCluster_ok {ds1 : DataSet} {env : Env} {ds' : DataSet} {nc : Nat}
    (hadv : ds1.advanceCluster env = Except.ok ds')
    (hnc : ds1.num_cluster = some nc) :
    (1 ≤ ds1.rest_cluster →
      ds' = { DataSet.next_cluster { ds1 with
          num_cluster := some nc,
          input_paths_cluster := (ds1.input_paths.drop
            ((nc - ds1.rest_cluster) * ds1.data_num_cluster)).take
              ds1.data_num_cluster,
          label_paths_cluster := (ds1.label_paths.drop
            ((nc - ds1.rest_cluster) * ds1.data_num_cluster)).take
              ds1.data_num_cluster,
          rest_cluster := ds1.rest_cluster - 1 } env
        with next_cluster_flag := false }) ∧
    (¬ 1 ≤ ds1.rest_cluster → ds1.data_type = "train" →
      ds' = { DataSet.next_cluster { ds1 with
          num_cluster := some nc,
          rest_cluster := nc - 1,
          input_paths_cluster := ds1.input_paths.take ds1.data_num_cluster,
          label_paths_cluster := ds1.label_paths.take ds1.data_num_cluster } env
        with next_cluster_flag := false }) := by
  by_cases hrc : 1 ≤ ds1.rest_cluster
  · simp only [DataSet.advanceCluster, if_pos hrc, hnc] at hadv
    exact ⟨fun _ => (Except.ok.inj hadv).symm, fun hc => absurd hrc hc⟩
  · by_cases hdt : ds1.data_type = "train"
    · simp only [DataSet.advanceCluster, if_neg hrc, if_pos hdt, hnc] at hadv
      exact ⟨fun hc => absurd hc hrc, fun _ _ => (Except.ok.inj hadv).symm⟩
    · exact ⟨fun hc => absurd hc hrc, fun _ htr => absurd htr hdt⟩

/-- C6: for every sorted-mode training reader whose `next_batch` call exhausts
the current cluster, the returned state has advanced the cluster: when
`rest_cluster ≥ 1`, the new path slice starts at offset `(num_cluster -
rest_cluster) * data_num_cluster` into the full sorted path arrays and
`rest_cluster` is decremented by one; when `rest_cluster = 0` (epoch boundary),
the reader resets to the first cluster slice with `rest_cluster = num_cluster -
1`.  In both cases the new cluster is then reloaded: the unconsumed set is
refilled over the new slice, the advance flag is cleared, and — when no frame
stacking is configured (`num_skip = None`) — the loaded arrays are exactly the
loads of the new path slice. -/
theorem claim_c6 (ds : DataSet) (b : Int) (shuffle : List Nat → List Nat)
    (env : Env) (batch : Batch) (ds' : DataSet) (nc : Nat)
    (hsort : ds.is_sorted = true)
    (htrain : ds.data_type = "train")
    (hflag : ds.next_cluster_flag = false)
    (hnc : ds.num_cluster = some nc)
    (hle : ¬ (ds.rest.length : Int) > b)
    (h : ds.next_batch b shuffle [] env = Except.ok (batch, ds')) :
    (1 ≤ ds.rest_cluster →
      ds'.input_paths_cluster = (ds.input_paths.drop
        ((nc - ds.rest_cluster) * ds.data_num_cluster)).take
          ds.data_num_cluster ∧
      ds'.label_paths_cluster = (ds.label_paths.drop
        ((nc - ds.rest_cluster) * ds.data_num_cluster)).take
          ds.data_num_cluster ∧
      ds'.rest_cluster = ds.rest_cluster - 1) ∧
    (ds.rest_cluster = 0 →
      ds'.rest_cluster = nc - 1 ∧
      ds'.input_paths_cluster = ds.input_paths.take ds.data_num_cluster ∧
      ds'.label_paths_cluster = ds.label_paths.take ds.data_num_cluster) ∧
    ds'.rest = List.range ds'.input_paths_cluster.length ∧
    ds'.next_cluster_flag = false ∧
    (ds.num_skip = none →
      ds'.input_list = ds'.input_paths_cluster.map env.loadInput ∧
      ds'.label_list = ds'.label_paths_cluster.map env.loadLabel) := by
  unfold DataSet.next_batch at h
  rw [if_pos hsort] at h
  obtain ⟨last, lastArr, hlast, harr, hasm, hstate⟩ := nextBatchSorted_ok_inv h
  have hflag1 : (if (ds.rest.length : Int) > b then ds.next_cluster_flag
      else if ds.data_type = "train" then true else ds.next_cluster_flag)
      = true := by
    rw [if_neg hle, if_pos htrain]
  rcases hstate with ⟨hf, _⟩ | ⟨_, hadv⟩
  · rw [hflag1] at hf
    cases hf
  · have hA := advanceCluster_ok hadv hnc
    by_cases hrc : 1 ≤ ds.rest_cluster
    · have hds' := hA.1 hrc
      rw [hds']
      refine ⟨fun _ => ⟨rfl, rfl, rfl⟩, fun h0 => absurd hrc (by omega), rfl,
        rfl, fun hskip => ?_⟩
      cases hst : ds.num_stack with
      | none => simp [DataSet.next_cluster, hskip, hst]
      | some st => simp [DataSet.next_cluster, hskip, hst]
    · have h0 : ds.rest_cluster = 0 := by omega
      have hds' := hA.2 hrc htrain
      rw [hds']
      refine ⟨fun hc => absurd hc hrc, fun _ => ⟨rfl, rfl, rfl⟩, rfl, rfl,
        fun hskip => ?_⟩
      cases hst : ds.num_stack with
      | none => simp [DataSet.next_cluster, hskip, hst]
      | some st => simp [DataSet.next_cluster, hskip, hst]

/-- Witness for C6 at two concrete training readers: one with a remaining
cluster (slice offset 1, decrement to 0) and one at the epoch boundary (reset
to the first slice with `rest_cluster = 1`). -/
theorem claim_c6_witness :
    ((1 ≤ advDS.rest_cluster →
      advPair.2.input_paths_cluster = (advDS.input_paths.drop
        ((2 - advDS.rest_cluster) * advDS.data_num_cluster)).take
          advDS.data_num_cluster ∧
      advPair.2.label_paths_cluster = (advDS.label_paths.drop
        ((2 - advDS.rest_cluster) * advDS.data_num_cluster)).take
          advDS.data_num_cluster ∧
      advPair.2.rest_cluster = advDS.rest_cluster - 1) ∧
    (advDS.rest_cluster = 0 →
      advPair.2.rest_cluster = 2 - 1 ∧
      advPair.2.input_paths_cluster = advDS.input_paths.take
        advDS.data_num_cluster ∧
      advPair.2.label_paths_cluster = advDS.label_paths.take
        advDS.data_num_cluster) ∧
    advPair.2.rest = List.range advPair.2.input_paths_cluster.length ∧
    advPair.2.next_cluster_flag = false ∧
    (advDS.num_skip = none →
      advPair.2.input_list = advPair.2.input_paths_cluster.map advEnv.loadInput ∧
      advPair.2.label_list = advPair.2.label_paths_cluster.map advEnv.loadLabel))
    ∧
    ((1 ≤ advDS0.rest_cluster →
      advPair0.2.input_paths_cluster = (advDS0.input_paths.drop
        ((2 - advDS0.rest_cluster) * advDS0.data_num_cluster)).take
          advDS0.data_num_cluster ∧
      advPair0.2.label_paths_cluster = (advDS0.label_paths.drop
        ((2 - advDS0.rest_cluster) * advDS0.data_num_cluster)).take
          advDS0.data_num_cluster ∧
      advPair0.2.rest_cluster = advDS0.rest_cluster - 1) ∧
    (advDS0.rest_cluster = 0 →
      advPair0.2.rest_cluster = 2 - 1 ∧
      advPair0.2.input_paths_cluster = advDS0.input_paths.take
        advDS0.data_num_cluster ∧
      advPair0.2.label_paths_cluster = advDS0.label_paths.take
        advDS0.data_num_cluster) ∧
    advPair0.2.rest = List.range advPair0.2.input_paths_cluster.length ∧
    advPair0.2.next_cluster_flag = false ∧
    (advDS0.num_skip = none →
      advPair0.2.input_list = advPair0.2.input_paths_cluster.map advEnv.loadInput
        ∧
      advPair0.2.label_list = advPair0.2.label_paths_cluster.map
        advEnv.loadLabel)) :=
  ⟨claim_c6 advDS 1 id advEnv advPair.1 advPair.2 2 (by decide) (by decide)
      (by decide) (by decide) (by decide) (by decide),
    claim_c6 advDS0 1 id advEnv advPair0.1 advPair0.2 2 (by decide) (by decide)
      (by decide) (by decide) (by decide) (by decide)⟩

/-- Counterexample to C9 as stated: with an utterance key containing a dot
(`"a.b"`), the name entry of the returned batch is `"a"` — the key cut at its
first dot, because `split('.')[0]` truncates at the first dot rather than
stripping the `.npy` extension — and not the original key `"a.b"`. -/
theorem claim_c9_counterexample :
    dotDS0.frame_num_dict = [("a.b", 3)] ∧
    dotDS0.next_batch 1 id [] dotEnv = Except.ok dotPair ∧
    dotPair.1.input_names = ["a"] ∧
    dotPair.1.input_names ≠ ["a.b"] :=
  ⟨by decide, by decide, by decide, by decide⟩

/-- C9 amended: every entry of a batch's name list is the stripped basename
(`basename(path).split('.')[0]`) of the selected utterance's cluster path, and
for every utterance whose key contains no dot and no slash this recovered name
equals the original key of the frame-count index exactly (for a key with a dot,
it is the part of the key before its first dot). -/
theorem claim_c9_amended :
    (∀ label_type train_data_size data_type name : String,
      ('.' : Char) ∉ name.data → ('/' : Char) ∉ name.data →
      stripName (inputPathOf label_type train_data_size data_type name) = name ∧
      stripName (labelPathOf label_type train_data_size data_type name) = name)
    ∧
    (∀ (ds : DataSet) (maxf : Nat) (idxs : List Nat) (batch : Batch),
      ds.assemble maxf idxs = Except.ok batch →
      batch.input_names = idxs.map
        (fun x => stripName (ds.input_paths_cluster.getD x ("")))) := by
  constructor
  · intro lt tds dt name hdot hslash
    exact ⟨stripName_pyJoin _ name hdot hslash,
      stripName_pyJoin _ name hdot hslash⟩
  · intro ds maxf idxs batch hasm
    exact exMap_nameOf_map (assemble_ok_iff.mp hasm).2.2.2

/-- Witness for C9's amended statement: a dot-free CSJ-style utterance key
round-trips through the path construction and name recovery, and the scenario
batch's names are the stripped basenames of the selected cluster paths. -/
theorem claim_c9_witness :
    (stripName (inputPathOf ("kanji") ("default") ("dev") ("A01M0097_0")) =
      "A01M0097_0" ∧
    stripName (labelPathOf ("kanji") ("default") ("dev") ("A01M0097_0")) =
      "A01M0097_0") ∧
    csjPair1.1.input_names = [0, 1].map
      (fun x => stripName (csjDS0.input_paths_cluster.getD x (""))) :=
  ⟨claim_c9_amended.1 ("kanji") ("default") ("dev") ("A01M0097_0") (by decide)
      (by decide),
    claim_c9_amended.2 csjDS0 5 [0, 1] csjPair1.1 (by decide)⟩

/-- C7: consumption-state invariant and epoch accounting.  (i) While the
cluster is not exhausted, a sorted-mode call moves exactly the selected indices
from the unconsumed set to the emitted side: if before the call every index
below `n` lies in exactly one of {already emitted, still unconsumed}, the same
holds afterwards with the selection joined to the emitted side — no index is
emitted twice and none is dropped.  (ii) At a sorted-mode non-training boundary
call, the final short batch has exactly the remaining count as its size, every
index below `n` is covered by {emitted, unconsumed}, and the unconsumed set is
refilled for the next pass.  (iii) The same exchange holds for an unsorted-mode
call with the sampled indices.  (iv) The batch sizes of one full sorted-mode
pass (`epochSizes`) over the fresh unconsumed set `range n` sum to `n`, the
cluster size.  (v) `epochSizes` is grounded in `next_batch`: its head is the
size of the batch the call actually returns, and its tail continues on the
returned state's unconsumed set. -/
theorem claim_c7 :
    (∀ (ds : DataSet) (b : Int) (shuffle : List Nat → List Nat) (env : Env)
        (batch : Batch) (ds' : DataSet) (emitted : Finset Nat) (n : Nat),
      ds.next_cluster_flag = false →
      (ds.rest.length : Int) > b →
      ds.nextBatchSorted b shuffle env = Except.ok (batch, ds') →
      (∀ i < n, (i ∈ emitted ↔ i ∉ ds.rest)) →
      ds'.rest = ds.rest.filter (fun x => decide (x ∉ ds.selectionSorted b)) ∧
      (∀ i < n, (i ∈ emitted ∪ (ds.selectionSorted b).toFinset ↔
        i ∉ ds'.rest))) ∧
    (∀ (ds : DataSet) (b : Int) (shuffle : List Nat → List Nat) (env : Env)
        (batch : Batch) (ds' : DataSet) (emitted : Finset Nat) (n : Nat),
      (∀ l, (shuffle l).Perm l) →
      ds.next_cluster_flag = false →
      ds.data_type ≠ "train" →
      ¬ (ds.rest.length : Int) > b →
      ds.nextBatchSorted b shuffle env = Except.ok (batch, ds') →
      (∀ i < n, (i ∈ emitted ↔ i ∉ ds.rest)) →
      batch.input_names.length = ds.rest.length ∧
      (∀ i < n, i ∈ emitted ∨ i ∈ ds.rest) ∧
      ds'.rest = List.range ds.input_paths_cluster.length) ∧
    (∀ (ds : DataSet) (b : Int) (sample : List Nat)
        (shuffle : List Nat → List Nat) (env : Env) (batch : Batch)
        (ds' : DataSet) (emitted : Finset Nat) (n : Nat),
      (ds.rest.length : Int) > b →
      ds.nextBatchUnsorted b sample shuffle env = Except.ok (batch, ds') →
      (∀ i < n, (i ∈ emitted ↔ i ∉ ds.rest)) →
      ds'.rest = ds.rest.filter (fun x => decide (x ∉ sample)) ∧
      (∀ i < n, (i ∈ emitted ∪ sample.toFinset ↔ i ∉ ds'.rest))) ∧
    (∀ b : Nat, 0 < b → ∀ n : Nat,
      (epochSizes b (List.range n)).sum = n) ∧
    (∀ (ds : DataSet) (b : Nat) (shuffle : List Nat → List Nat) (env : Env)
        (batch : Batch) (ds' : DataSet),
      ds.next_cluster_flag = false →
      ds.data_type ≠ "train" →
      0 < b →
      (∀ l, (shuffle l).Perm l) →
      ds.nextBatchSorted (b : Int) shuffle env = Except.ok (batch, ds') →
      epochSizes b ds.rest = batch.input_names.length ::
        (if (ds.rest.length : Int) > (b : Int) then epochSizes b ds'.rest
          else [])) := by
  refine ⟨?_, ?_, ?_, ?_, ?_⟩
  · intro ds b shuffle env batch ds' emitted n hflag hgt h hpre
    obtain ⟨last, lastArr, hlast, harr, hasm, hstate⟩ := nextBatchSorted_ok_inv h
    have hflag1 : (if (ds.rest.length : Int) > b then ds.next_cluster_flag
        else if ds.data_type = "train" then true else ds.next_cluster_flag)
        = false := by
      rw [if_pos hgt, hflag]
    have hrest' : ds'.rest =
        ds.rest.filter (fun x => decide (x ∉ ds.selectionSorted b)) := by
      rcases hstate with ⟨_, hds⟩ | ⟨hfl, _⟩
      · rw [hds]
        show (if (ds.rest.length : Int) > b then _ else _) = _
        rw [if_pos hgt]
      · rw [hflag1] at hfl
        cases hfl
    refine ⟨hrest', ?_⟩
    intro i hi
    rw [hrest']
    by_cases hisel : i ∈ ds.selectionSorted b
    · simp [hisel]
    · simp only [Finset.mem_union, List.mem_toFinset, List.mem_filter,
        decide_eq_true_eq, hisel, or_false]
      rw [hpre i hi]
      simp [hisel]
  · intro ds b shuffle env batch ds' emitted n hsh hflag hdt hle h hpre
    obtain ⟨last, lastArr, hlast, harr, hasm, hstate⟩ := nextBatchSorted_ok_inv h
    have hflag1 : (if (ds.rest.length : Int) > b then ds.next_cluster_flag
        else if ds.data_type = "train" then true else ds.next_cluster_flag)
        = false := by
      rw [if_neg hle, if_neg hdt, hflag]
    refine ⟨?_, ?_, ?_⟩
    · rw [(assemble_ok_lengths hasm).2.2.2, (hsh _).length_eq,
        selectionSorted_of_le hle]
    · intro i hi
      by_cases hir : i ∈ ds.rest
      · exact Or.inr hir
      · exact Or.inl ((hpre i hi).mpr hir)
    · rcases hstate with ⟨_, hds⟩ | ⟨hfl, _⟩
      · rw [hds]
        show (if (ds.rest.length : Int) > b then _
          else if ds.data_type = "train" then _ else _) = _
        rw [if_neg hle, if_neg hdt]
      · rw [hflag1] at hfl
        cases hfl
  · intro ds b sample shuffle env batch ds' emitted n hgt h hpre
    obtain ⟨maxf, lens, _, _, _, hds⟩ := nextBatchUnsorted_ok_inv h
    have hrest' : ds'.rest = ds.rest.filter (fun x => decide (x ∉ sample)) := by
      rw [hds]
      show (if (ds.rest.length : Int) > b then _ else _) = _
      rw [if_pos hgt]
    refine ⟨hrest', ?_⟩
    intro i hi
    rw [hrest']
    by_cases hisel : i ∈ sample
    · simp [hisel]
    · simp only [Finset.mem_union, List.mem_toFinset, List.mem_filter,
        decide_eq_true_eq, hisel, or_false]
      rw [hpre i hi]
      simp [hisel]
  · intro b hb n
    have hs : List.Sorted (· < ·) (List.range n) := List.pairwise_lt_range n
    rw [epochSizes_sum b hb (List.range n) hs, List.length_range]
  · intro ds b shuffle env batch ds' hflag hdt hb hsh h
    obtain ⟨last, lastArr, hlast, harr, hasm, hstate⟩ := nextBatchSorted_ok_inv h
    have hnames : batch.input_names.length =
        (ds.selectionSorted (b : Int)).length := by
      rw [(assemble_ok_lengths hasm).2.2.2, (hsh _).length_eq]
    by_cases hgt : (ds.rest.length : Int) > (b : Int)
    · have hblt : b < ds.rest.length ∧ 0 < b := ⟨by exact_mod_cast hgt, hb⟩
      have hflag1 : (if (ds.rest.length : Int) > (b : Int) then
          ds.next_cluster_flag else if ds.data_type = "train" then true
          else ds.next_cluster_flag) = false := by
        rw [if_pos hgt, hflag]
      have hrest' : ds'.rest = ds.rest.filter
          (fun x => decide (x ∉ sortedSelect ds.rest (b : Int))) := by
        rcases hstate with ⟨_, hds⟩ | ⟨hfl, _⟩
        · rw [hds]
          show (if (ds.rest.length : Int) > (b : Int) then
              ds.rest.filter (fun x => decide (x ∉ ds.selectionSorted (b : Int)))
            else _) = _
          rw [if_pos hgt]
          unfold DataSet.selectionSorted
          rw [if_pos hgt]
        · rw [hflag1] at hfl
          cases hfl
      rw [epochSizes, dif_pos hblt, if_pos hgt, hrest']
      have hhead : (sortedSelect ds.rest (b : Int)).length =
          batch.input_names.length := by
        rw [hnames]
        unfold DataSet.selectionSorted
        rw [if_pos hgt]
      rw [hhead]
    · rw [epochSizes, dif_neg (by
        intro hc
        exact hgt (by exact_mod_cast hc.1)), if_neg hgt]
      have hhead : ds.rest.length = batch.input_names.length := by
        rw [hnames, selectionSorted_of_le hgt]
      rw [hhead]

/-- Witness for C7 at the concrete scenario: the first sorted batch moves
`{0, 1}` from unconsumed to emitted, the boundary batch emits the single
remaining index and refills, the unsorted variant does the same exchange with a
sampled index, and the epoch batch sizes `epochSizes 2 (range 3)` sum to the
cluster size 3, with `epochSizes` reproducing the actual batch sizes. -/
theorem claim_c7_witness :
    (csjPair1.2.rest = csjDS0.rest.filter
        (fun x => decide (x ∉ csjDS0.selectionSorted 2)) ∧
      (∀ i < 3, (i ∈ (∅ : Finset Nat) ∪ (csjDS0.selectionSorted 2).toFinset ↔
        i ∉ csjPair1.2.rest))) ∧
    (csjPair2.1.input_names.length = csjPair1.2.rest.length ∧
      (∀ i < 3, i ∈ ({0, 1} : Finset Nat) ∨ i ∈ csjPair1.2.rest) ∧
      csjPair2.2.rest = List.range csjPair1.2.input_paths_cluster.length) ∧
    (((csjDS0u.nextBatchUnsorted 2 [1] id csjEnv).toOption.getD
        (dummyBatch, dummyDS)).2.rest =
        csjDS0u.rest.filter (fun x => decide (x ∉ [1])) ∧
      (∀ i < 3, (i ∈ (∅ : Finset Nat) ∪ ([1] : List Nat).toFinset ↔
        i ∉ ((csjDS0u.nextBatchUnsorted 2 [1] id csjEnv).toOption.getD
          (dummyBatch, dummyDS)).2.rest))) ∧
    (epochSizes 2 (List.range 3)).sum = 3 ∧
    epochSizes 2 csjDS0.rest = csjPair1.1.input_names.length ::
      (if (csjDS0.rest.length : Int) > ((2 : Nat) : Int) then
        epochSizes 2 csjPair1.2.rest else []) :=
  ⟨claim_c7.1 csjDS0 2 id csjEnv csjPair1.1 csjPair1.2 ∅ 3 (by decide)
      (by decide) (by decide) (by decide),
    claim_c7.2.1 csjPair1.2 2 id csjEnv csjPair2.1 csjPair2.2 {0, 1} 3
      (fun l => List.Perm.refl l) (by decide) (by decide) (by decide)
      (by decide) (by decide),
    claim_c7.2.2.1 csjDS0u 2 [1] id csjEnv
      ((csjDS0u.nextBatchUnsorted 2 [1] id csjEnv).toOption.getD
        (dummyBatch, dummyDS)).1
      ((csjDS0u.nextBatchUnsorted 2 [1] id csjEnv).toOption.getD
        (dummyBatch, dummyDS)).2 ∅ 3 (by decide) (by decide) (by decide),
    claim_c7.2.2.2.1 2 (by decide) 3,
    claim_c7.2.2.2.2 csjDS0 2 id csjEnv csjPair1.1 csjPair1.2 (by decide)
      (by decide) (by decide) (fun l => List.Perm.refl l) (by decide)⟩
